import Mathlib

/-!
# Stake index and rank query service of go-cyber

Shallow embedding of

* `x/bank/internal/keeper/index.go`: the `IndexedKeeper` holding two
  generations of per-account total stake and the list of touched accounts;
* `x/rank/keeper/grpc_query.go`: the query handlers of `StateKeeper`.

Conventions.

* An allocated Go `map[cbd.AccNumber]uint64` is a finite map with pairwise
  distinct keys (`AList`); reading an absent key gives the zero value `0`.
  Until `Load` runs both maps of the keeper are nil: a nil map reads like an
  empty one and a write into it is a run-time fault.
* `uint64` values are natural numbers, arithmetic on them is taken modulo
  `2 ^ 64`; `int64` values are integers.
* The collaborators that are not part of these two files (account keeper,
  bank keeper, graph keeper, rank index, the SDK address parser) are record
  parameters; `sdk.Context` selects the store snapshot they read.
* A Go run-time fault (nil dereference, explicit `panic`) is an explicit
  outcome: `none` for the keeper, `Reply.fault` for the handlers.
-/

namespace Cyber

/-! ## Data model of `index.go` -/

/-- Account number `cbd.AccNumber`, a `uint64`. -/
abbrev AccNumber := Nat

/-- Account address `sdk.AccAddress`, a byte slice. -/
abbrev AccAddress := List Nat

/-- Execution context `sdk.Context`: names the store snapshot that is read. -/
abbrev Context := Nat

/-- Go type `map[cbd.AccNumber]uint64`. -/
abbrev StakeMap := AList (fun _ : AccNumber => Nat)

/-- Equality of two maps is decided on their entry lists. -/
instance StakeMap.decEq : DecidableEq StakeMap := fun a b =>
  decidable_of_iff (a.entries = b.entries) ⟨AList.ext, fun h => congrArg AList.entries h⟩

/-- Map read `m[k]`: the stored value, the zero value when `k` is absent. -/
def StakeMap.get (m : StakeMap) (k : AccNumber) : Nat :=
  match m.lookup k with
  | some v => v
  | none => 0

/-- Map write `m[k] = v`. -/
def StakeMap.set (m : StakeMap) (k : AccNumber) (v : Nat) : StakeMap :=
  m.insert k v

/-- Key test: `k` is a key of `m`. -/
def StakeMap.has (m : StakeMap) (k : AccNumber) : Bool :=
  (m.lookup k).isSome

/-- Conversion `uint64(x)` of a signed integer: reduction modulo `2 ^ 64`. -/
def uint64 (x : Int) : Nat :=
  (x % 2 ^ 64).toNat

/-- Addition on `uint64`, wrapping modulo `2 ^ 64`. -/
def addUint64 (a b : Nat) : Nat :=
  (a + b) % 2 ^ 64

/-- Interface `auth.Account`, as far as it is used here. -/
structure Account where
  GetAddress : AccAddress
  GetAccountNumber : Nat
deriving DecidableEq

/-- Account keeper of the SDK: `GetAccount` yields `none` for Go `nil`;
`accounts ctx` are the stored accounts in the order `IterateAccounts` visits
them. -/
structure AccountKeeper where
  GetAccount : Context → AccAddress → Option Account
  accounts : Context → List Account

/-- Embedded bank `Keeper`: the account keeper and the total stake of an
address, an `int64`. -/
structure Keeper where
  accountKeeper : AccountKeeper
  GetAccountTotalStake : Context → AccAddress → Int

/-- The two map fields of `IndexedKeeper` when they are allocated: committed
stakes `userTotalStake` and fresh stakes `userNewTotalStake`. -/
structure StakeMaps where
  userTotalStake : StakeMap
  userNewTotalStake : StakeMap
deriving DecidableEq

/-- Mutable fields of `IndexedKeeper`. With `maps = none` both map fields are
nil, as `NewIndexedKeeper` leaves them; with `maps = some m` both are
allocated, as `Load` leaves them. The two fields are assigned only by `Load`,
both at once, so one is nil exactly when the other is. `accsToUpdate` are the
touched addresses. -/
structure IndexedKeeper where
  maps : Option StakeMaps
  accsToUpdate : List AccAddress
deriving DecidableEq

/-- Field `userTotalStake` as map reads and `range` see it: a nil map reads
like an empty one. -/
def IndexedKeeper.userTotalStake (s : IndexedKeeper) : StakeMap :=
  match s.maps with
  | some m => m.userTotalStake
  | none => ∅

/-- Field `userNewTotalStake` as map reads and `range` see it: a nil map reads
like an empty one. -/
def IndexedKeeper.userNewTotalStake (s : IndexedKeeper) : StakeMap :=
  match s.maps with
  | some m => m.userNewTotalStake
  | none => ∅

/-! ## Operations of `index.go` -/

/-- Keeper state built by `NewIndexedKeeper`: `accsToUpdate` is an empty slice,
the two maps are not set and so nil. -/
def NewIndexedKeeper : IndexedKeeper :=
  { maps := none, accsToUpdate := [] }

/-- Transfer hook registered by `NewIndexedKeeper`; `none` is a `nil` address.
-/
def hook (fromAddr toAddr : Option AccAddress) (index : IndexedKeeper) : IndexedKeeper :=
  let index1 : IndexedKeeper :=
    match fromAddr with
    | some a => { index with accsToUpdate := index.accsToUpdate ++ [a] }
    | none => index
  match toAddr with
  | some a => { index1 with accsToUpdate := index1.accsToUpdate ++ [a] }
  | none => index1

/-- SDK iteration `IterateAccounts`: calls `cb` on each stored account in turn
and stops as soon as `cb` answers `true`. -/
def iterateAccounts {σ : Type} (cb : Account → σ → σ × Bool) : List Account → σ → σ
  | [], st => st
  | acc :: rest, st =>
    match cb acc st with
    | (st1, true) => st1
    | (st1, false) => iterateAccounts cb rest st1

/-- Callback built by `getCollectFunc`: stores the stake of `acc` under its
account number and asks to continue. -/
def getCollectFunc (k : Keeper) (ctx : Context) (acc : Account) (userStake : StakeMap) :
    StakeMap × Bool :=
  let balance := k.GetAccountTotalStake ctx acc.GetAddress
  (StakeMap.set userStake acc.GetAccountNumber (uint64 balance), false)

/-- Method `Load`: allocates both maps anew and fills them. -/
def Load (k : Keeper) (rankCtx freshCtx : Context) (s : IndexedKeeper) : IndexedKeeper :=
  let userTotalStake :=
    iterateAccounts (getCollectFunc k rankCtx) (k.accountKeeper.accounts rankCtx) ∅
  let userNewTotalStake :=
    iterateAccounts (getCollectFunc k freshCtx) (k.accountKeeper.accounts freshCtx) ∅
  { s with maps := some { userTotalStake := userTotalStake,
                          userNewTotalStake := userNewTotalStake } }

/-- Loop of `FixUserStake` over the entries `(k, v)` of the fresh map, carrying
the committed map and the flag `stakeChanged`. -/
def fixLoop : List (Sigma fun _ : AccNumber => Nat) → StakeMap → Bool → StakeMap × Bool
  | [], committed, stakeChanged => (committed, stakeChanged)
  | ⟨k, v⟩ :: rest, committed, stakeChanged =>
    if StakeMap.get committed k ≠ v then
      fixLoop rest (StakeMap.set committed k v) true
    else
      fixLoop rest committed stakeChanged

/-- Method `FixUserStake`: the returned flag and the keeper afterwards. On nil
maps the `range` has no iteration; on allocated maps the loop body writes into
the allocated committed map. -/
def FixUserStake (s : IndexedKeeper) : Bool × IndexedKeeper :=
  match s.maps with
  | none => (false, s)
  | some m =>
    let r := fixLoop m.userNewTotalStake.entries m.userTotalStake false
    (r.2, { s with maps := some { m with userTotalStake := r.1 } })

/-- Map write `s.userNewTotalStake[k] = v`; `none` is the panic of an
assignment to an entry in a nil map. -/
def writeFresh (s : IndexedKeeper) (k : AccNumber) (v : Nat) : Option IndexedKeeper :=
  match s.maps with
  | none => none
  | some m =>
    some { s with maps := some { m with userNewTotalStake := StakeMap.set m.userNewTotalStake k v } }

/-- Method `UpdateStake`: `userNewTotalStake[acc] += uint64(stake)`, a read
followed by a write. -/
def UpdateStake (acc : AccNumber) (stake : Int) (s : IndexedKeeper) : Option IndexedKeeper :=
  let v := addUint64 (StakeMap.get s.userNewTotalStake acc) (uint64 stake)
  writeFresh s acc v

/-- Method `GetTotalStakes`: the committed map, `none` when it is nil. -/
def GetTotalStakes (s : IndexedKeeper) : Option StakeMap :=
  match s.maps with
  | some m => some m.userTotalStake
  | none => none

/-- Loop of `EndBlocker` over the touched addresses. It faults, with result
`none`, on the nil dereference of `GetAccount(ctx, addr).GetAccountNumber()`
for a missing account and on the write into a nil fresh map. -/
def flushLoop (k : Keeper) (ctx : Context) : List AccAddress → IndexedKeeper → Option IndexedKeeper
  | [], s => some s
  | addr :: rest, s =>
    let stake := k.GetAccountTotalStake ctx addr
    match k.accountKeeper.GetAccount ctx addr with
    | none => none
    | some account =>
      match writeFresh s account.GetAccountNumber (uint64 stake) with
      | none => none
      | some s1 => flushLoop k ctx rest s1

/-- Method `EndBlocker`: flushes the touched addresses into the fresh map and
resets `accsToUpdate`. -/
def EndBlocker (k : Keeper) (ctx : Context) (s : IndexedKeeper) : Option IndexedKeeper :=
  match flushLoop k ctx s.accsToUpdate s with
  | none => none
  | some s1 => some { s1 with accsToUpdate := [] }

/-- The loop of `EndBlocker` as it acts on an allocated fresh map, where only a
missing account can stop it. -/
def flushAllocated (k : Keeper) (ctx : Context) : List AccAddress → StakeMap → Option StakeMap
  | [], fresh => some fresh
  | addr :: rest, fresh =>
    let stake := k.GetAccountTotalStake ctx addr
    match k.accountKeeper.GetAccount ctx addr with
    | none => none
    | some account =>
      flushAllocated k ctx rest (StakeMap.set fresh account.GetAccountNumber (uint64 stake))

/-! ## Data model of `grpc_query.go` -/

/-- Content number `graphtypes.CidNumber`, a `uint64`. -/
abbrev CidNumber := Nat

/-- Error values the handlers return: `codes.InvalidArgument` of gRPC and the
registered errors `ErrCidNotFound`, `ErrInvalidAddress`, `ErrInvalidAccount`.
-/
inductive ErrKind where
  | InvalidArgument
  | ErrCidNotFound
  | ErrInvalidAddress
  | ErrInvalidAccount
deriving DecidableEq

/-- Outcome of a handler call: the Go pair `(resp, nil)` is `ok resp`, the pair
`(nil, err)` is `error kind description`, and `fault` is a run-time panic. -/
inductive Reply (α : Type) where
  | ok (resp : α)
  | error (kind : ErrKind) (description : String)
  | fault
deriving DecidableEq

/-- Entry of the rank index: a content number with its rank. -/
structure RankedCidNumber where
  GetNumber : CidNumber
  GetRank : Nat
deriving DecidableEq

/-- Entry of a response, `types.RankedCid`. -/
structure RankedCid where
  Cid : String
  Rank : Nat
deriving DecidableEq

/-- Link key `graphtypes.CompactLink`; the fields in the order of the
positional literal in `IsLinkExist`. -/
structure CompactLink where
  fromCid : Nat
  toCid : Nat
  account : Nat
deriving DecidableEq

/-- Pagination request `querytypes.PageRequest` with `uint32` fields. -/
structure PageRequest where
  Page : Nat
  PerPage : Nat
deriving DecidableEq

/-- Pagination response `querytypes.PageResponse`. -/
structure PageResponse where
  Total : Nat
deriving DecidableEq

/-- Request `types.QueryRankRequest`. -/
structure QueryRankRequest where
  Cid : String
deriving DecidableEq

/-- Response `types.QueryRankResponse`. -/
structure QueryRankResponse where
  Rank : Nat
deriving DecidableEq

/-- Request `types.QuerySearchRequest`; `Pagination` is a pointer, `none` when
nil. -/
structure QuerySearchRequest where
  Cid : String
  Pagination : Option PageRequest
deriving DecidableEq

/-- Response `types.QuerySearchResponse`. -/
structure QuerySearchResponse where
  Result : List RankedCid
  Pagination : PageResponse
deriving DecidableEq

/-- Request `types.QueryIsLinkExistRequest`. -/
structure QueryIsLinkExistRequest where
  From : String
  To : String
  Address : String
deriving DecidableEq

/-- Request `types.QueryIsAnyLinkExistRequest`. -/
structure QueryIsAnyLinkExistRequest where
  From : String
  To : String
deriving DecidableEq

/-- Response `types.QueryLinkExistResponse`. -/
structure QueryLinkExistResponse where
  Exist : Bool
deriving DecidableEq

/-- Request `types.QueryEntropyRequest`. -/
structure QueryEntropyRequest where
  Cid : String
deriving DecidableEq

/-- Response `types.QueryEntropyResponse`. -/
structure QueryEntropyResponse where
  Entropy : Nat
deriving DecidableEq

/-- Request `types.QueryLuminosityRequest`. -/
structure QueryLuminosityRequest where
  Cid : String
deriving DecidableEq

/-- Response `types.QueryLuminosityResponse`. -/
structure QueryLuminosityResponse where
  Luminosity : Nat
deriving DecidableEq

/-- Request `types.QueryKarmaRequest`. -/
structure QueryKarmaRequest where
  Address : String
deriving DecidableEq

/-- Response `types.QueryKarmaResponse`. -/
structure QueryKarmaResponse where
  Karma : Nat
deriving DecidableEq

/-- Graph keeper: `GetCidNumber` returns the number and the flag `exist`,
`GetCid` is the inverse lookup. -/
structure GraphKeeper where
  GetCidNumber : Context → String → CidNumber × Bool
  GetCid : Context → CidNumber → String

/-- Rank index `bk.index`; `Except.error` is a non-nil `err`. -/
structure SearchIndex where
  GetRankValue : CidNumber → Nat
  Search : CidNumber → Nat → Nat → Except String (List RankedCidNumber × Nat)
  Backlinks : CidNumber → Nat → Nat → Except String (List RankedCidNumber × Nat)
  Top : Nat → Nat → Except String (List RankedCidNumber × Nat)

/-- Link index `bk.graphIndexedKeeper`. -/
structure GraphIndexedKeeper where
  IsLinkExist : CompactLink → Bool
  IsAnyLinkExist : CidNumber → CidNumber → Bool

/-- Collaborators of `StateKeeper` used by the handlers; `AccAddressFromBech32`
is the address parser of the SDK, with `Except.error` carrying `err.Error()`.
-/
structure StateKeeper where
  graphKeeper : GraphKeeper
  index : SearchIndex
  graphIndexedKeeper : GraphIndexedKeeper
  accountKeeper : AccountKeeper
  AccAddressFromBech32 : String → Except String AccAddress
  addrString : AccAddress → String
  GetEntropy : CidNumber → Nat
  GetLuminosity : CidNumber → Nat
  GetKarma : Nat → Nat

/-! ## Handlers of `grpc_query.go` -/

/-- Go assignment `x = new` to a variable holding `old`: the variable holds
`new` afterwards. -/
def assign {α : Type} (_old new : α) : α :=
  new

/-- Loop shared by `Search`, `Backlinks` and `Top` that maps each entry of the
index back to its content identifier. -/
def toRankedCids (bk : StateKeeper) (ctx : Context) : List RankedCidNumber → List RankedCid
  | [] => []
  | c :: rest => { Cid := bk.graphKeeper.GetCid ctx c.GetNumber, Rank := c.GetRank }
      :: toRankedCids bk ctx rest

/-- Handler `Rank`; the request is read without a nil test. -/
def Rank (bk : StateKeeper) (ctx : Context) (req : Option QueryRankRequest) :
    Reply QueryRankResponse :=
  match req with
  | none => Reply.fault
  | some r =>
    match bk.graphKeeper.GetCidNumber ctx r.Cid with
    | (_, false) => Reply.error ErrKind.ErrCidNotFound r.Cid
    | (cidNum, true) => Reply.ok { Rank := bk.index.GetRankValue cidNum }

/-- Handler `Search`. -/
def Search (bk : StateKeeper) (ctx : Context) (req : Option QuerySearchRequest) :
    Reply QuerySearchResponse :=
  match req with
  | none => Reply.error ErrKind.InvalidArgument "empty request"
  | some r =>
    match bk.graphKeeper.GetCidNumber ctx r.Cid with
    | (_, false) => Reply.error ErrKind.ErrCidNotFound ""
    | (cidNum, true) =>
      let pageLimit : Nat × Nat :=
        match r.Pagination with
        | some p => (p.Page, p.PerPage)
        | none => (0, 10)
      match bk.index.Search cidNum pageLimit.1 pageLimit.2 with
      | Except.error _ => Reply.fault
      | Except.ok (rankedCidNumbers, totalSize) =>
        Reply.ok { Result := toRankedCids bk ctx rankedCidNumbers,
                   Pagination := { Total := totalSize } }

/-- Handler `Backlinks`. -/
def Backlinks (bk : StateKeeper) (ctx : Context) (req : Option QuerySearchRequest) :
    Reply QuerySearchResponse :=
  match req with
  | none => Reply.error ErrKind.InvalidArgument "empty request"
  | some r =>
    match bk.graphKeeper.GetCidNumber ctx r.Cid with
    | (_, false) => Reply.error ErrKind.ErrCidNotFound r.Cid
    | (cidNum, true) =>
      let pageLimit : Nat × Nat :=
        match r.Pagination with
        | some p => (p.Page, p.PerPage)
        | none => (0, 10)
      match bk.index.Backlinks cidNum pageLimit.1 pageLimit.2 with
      | Except.error _ => Reply.fault
      | Except.ok (rankedCidNumbers, totalSize) =>
        Reply.ok { Result := toRankedCids bk ctx rankedCidNumbers,
                   Pagination := { Total := totalSize } }

/-- Handler `Top`: `page, limit` are declared as `(0, 100)` and then assigned
the fields of the request. -/
def Top (bk : StateKeeper) (ctx : Context) (req : Option PageRequest) :
    Reply QuerySearchResponse :=
  match req with
  | none => Reply.error ErrKind.InvalidArgument "empty request"
  | some r =>
    let pageLimit : Nat × Nat := assign (0, 100) (r.Page, r.PerPage)
    match bk.index.Top pageLimit.1 pageLimit.2 with
    | Except.error _ => Reply.fault
    | Except.ok (topRankedCidNumbers, totalSize) =>
      Reply.ok { Result := toRankedCids bk ctx topRankedCidNumbers,
                 Pagination := { Total := totalSize } }

/-- Handler `IsLinkExist`. -/
def IsLinkExist (bk : StateKeeper) (ctx : Context) (req : Option QueryIsLinkExistRequest) :
    Reply QueryLinkExistResponse :=
  match req with
  | none => Reply.error ErrKind.InvalidArgument "empty request"
  | some r =>
    match bk.AccAddressFromBech32 r.Address with
    | Except.error e => Reply.error ErrKind.ErrInvalidAddress e
    | Except.ok addr =>
      match bk.graphKeeper.GetCidNumber ctx r.From with
      | (_, false) => Reply.error ErrKind.ErrCidNotFound r.From
      | (cidNumFrom, true) =>
        match bk.graphKeeper.GetCidNumber ctx r.To with
        | (_, false) => Reply.error ErrKind.ErrCidNotFound r.To
        | (cidNumTo, true) =>
          match bk.accountKeeper.GetAccount ctx addr with
          | none => Reply.error ErrKind.ErrInvalidAccount (bk.addrString addr)
          | some account =>
            let accountNum := account.GetAccountNumber
            let exists_ := bk.graphIndexedKeeper.IsLinkExist
              { fromCid := cidNumFrom, toCid := cidNumTo, account := accountNum }
            Reply.ok { Exist := exists_ }

/-- Handler `IsAnyLinkExist`. -/
def IsAnyLinkExist (bk : StateKeeper) (ctx : Context)
    (req : Option QueryIsAnyLinkExistRequest) : Reply QueryLinkExistResponse :=
  match req with
  | none => Reply.error ErrKind.InvalidArgument "empty request"
  | some r =>
    match bk.graphKeeper.GetCidNumber ctx r.From with
    | (_, false) => Reply.error ErrKind.ErrCidNotFound r.From
    | (cidNumFrom, true) =>
      match bk.graphKeeper.GetCidNumber ctx r.To with
      | (_, false) => Reply.error ErrKind.ErrCidNotFound r.To
      | (cidNumTo, true) =>
        Reply.ok { Exist := bk.graphIndexedKeeper.IsAnyLinkExist cidNumFrom cidNumTo }

/-- Handler `Entropy`. -/
def Entropy (s : StateKeeper) (ctx : Context) (request : Option QueryEntropyRequest) :
    Reply QueryEntropyResponse :=
  match request with
  | none => Reply.error ErrKind.InvalidArgument "empty request"
  | some r =>
    match s.graphKeeper.GetCidNumber ctx r.Cid with
    | (_, false) => Reply.error ErrKind.ErrCidNotFound r.Cid
    | (cidNum, true) => Reply.ok { Entropy := s.GetEntropy cidNum }

/-- Handler `Luminosity`. -/
def Luminosity (s : StateKeeper) (ctx : Context) (request : Option QueryLuminosityRequest) :
    Reply QueryLuminosityResponse :=
  match request with
  | none => Reply.error ErrKind.InvalidArgument "empty request"
  | some r =>
    match s.graphKeeper.GetCidNumber ctx r.Cid with
    | (_, false) => Reply.error ErrKind.ErrCidNotFound r.Cid
    | (cidNum, true) => Reply.ok { Luminosity := s.GetLuminosity cidNum }

/-- Handler `Karma`. -/
def Karma (s : StateKeeper) (ctx : Context) (request : Option QueryKarmaRequest) :
    Reply QueryKarmaResponse :=
  match request with
  | none => Reply.error ErrKind.InvalidArgument "empty request"
  | some r =>
    match s.AccAddressFromBech32 r.Address with
    | Except.error e => Reply.error ErrKind.ErrInvalidAddress e
    | Except.ok addr =>
      match s.accountKeeper.GetAccount ctx addr with
      | none => Reply.error ErrKind.ErrInvalidAccount (s.addrString addr)
      | some account => Reply.ok { Karma := s.GetKarma account.GetAccountNumber }

/-- Lines 47 to 50 of `Search`, the same in `Backlinks`: `page, limit` start
as `(0, 10)` and take the fields of `req.Pagination` when it is not nil. -/
def searchPaging (r : QuerySearchRequest) : Nat × Nat :=
  match r.Pagination with
  | some p => (p.Page, p.PerPage)
  | none => (0, 10)

/-- Lines shared by `Search`, `Backlinks` and `Top` after the call of the index:
a non-nil `err` panics, otherwise the entries are mapped back to their content
identifiers and the total is put into the page response. -/
def replyOfIndex (bk : StateKeeper) (ctx : Context) :
    Except String (List RankedCidNumber × Nat) → Reply QuerySearchResponse
  | Except.error _ => Reply.fault
  | Except.ok (rankedCidNumbers, totalSize) =>
    Reply.ok { Result := toRankedCids bk ctx rankedCidNumbers,
               Pagination := { Total := totalSize } }

/-- Account number read by `GetAccount(ctx, addr).GetAccountNumber()`; `none`
when the address has no account. -/
def accountNumberOf (k : Keeper) (ctx : Context) (addr : AccAddress) : Option AccNumber :=
  match k.accountKeeper.GetAccount ctx addr with
  | some account => some account.GetAccountNumber
  | none => none

/-! ## Call sequences between two flushes -/

/-- One call made on the keeper between two runs of `EndBlocker`: the transfer
hook or `UpdateStake`. -/
inductive Call where
  | transfer (fromAddr toAddr : Option AccAddress)
  | delta (acc : AccNumber) (stake : Int)
deriving DecidableEq

/-- Run the calls from left to right; `none` when an `UpdateStake` faults. -/
def runCalls : List Call → IndexedKeeper → Option IndexedKeeper
  | [], s => some s
  | Call.transfer fromAddr toAddr :: rest, s => runCalls rest (hook fromAddr toAddr s)
  | Call.delta acc stake :: rest, s =>
    match UpdateStake acc stake s with
    | none => none
    | some s1 => runCalls rest s1

/-! ## Sample data -/

/-- Keeper state with committed `1 ↦ 5`, fresh `1 ↦ 5, 2 ↦ 3` and one touched
address. -/
def sampleState : IndexedKeeper :=
  { maps := some { userTotalStake := StakeMap.set ∅ 1 5,
                   userNewTotalStake := StakeMap.set (StakeMap.set ∅ 1 5) 2 3 },
    accsToUpdate := [[1]] }

/-- Keeper state whose two maps are both `1 ↦ 5`. -/
def agreedState : IndexedKeeper :=
  { maps := some { userTotalStake := StakeMap.set ∅ 1 5,
                   userNewTotalStake := StakeMap.set ∅ 1 5 },
    accsToUpdate := [] }

/-- Account store in which address `[1]` is account 7 and address `[2]` is
account 8, with total stakes `40 + ctx` and 50 under context `ctx`. -/
def sampleBank : Keeper :=
  { accountKeeper :=
      { GetAccount := fun _ addr =>
          if addr = [1] then some { GetAddress := [1], GetAccountNumber := 7 }
          else if addr = [2] then some { GetAddress := [2], GetAccountNumber := 8 }
          else none,
        accounts := fun _ =>
          [{ GetAddress := [1], GetAccountNumber := 7 },
           { GetAddress := [2], GetAccountNumber := 8 }] },
    GetAccountTotalStake := fun ctx addr =>
      if addr = [1] then 40 + (ctx : Int) else if addr = [2] then 50 else 0 }

/-- Calls that record address `[1]` twice and address `[2]` once, with a delta
on account 7 in between. -/
def sampleCalls : List Call :=
  [Call.transfer (some [1]) (some [2]), Call.delta 7 (-3), Call.transfer none (some [1])]

/-- The sample state after the sample calls: the fresh map has the wrapped
delta under key 7 and the ChangeSet holds `[1]`, `[1]`, `[2]`, `[1]`. -/
def sampleAfterCalls : IndexedKeeper :=
  { maps := some { userTotalStake := StakeMap.set ∅ 1 5,
                   userNewTotalStake :=
                     StakeMap.set (StakeMap.set (StakeMap.set ∅ 1 5) 2 3) 7 (uint64 (-3)) },
    accsToUpdate := [[1], [1], [2], [1]] }

/-- Query keeper of the example scenario: "Qx1" and "Qx2" are content 1 and 2,
"addr1" parses to address `[1]` of account 7, "addr9" parses to address `[9]`
which has no account, and the only link is `(1, 2)` asserted by account 7. -/
def sampleQuery : StateKeeper :=
  { graphKeeper :=
      { GetCidNumber := fun _ cid =>
          if cid = "Qx1" then (1, true) else if cid = "Qx2" then (2, true) else (0, false),
        GetCid := fun _ n => if n = 1 then "Qx1" else if n = 2 then "Qx2" else "" },
    index :=
      { GetRankValue := fun n => if n = 1 then 11 else if n = 2 then 22 else 0,
        Search := fun _ _ _ => Except.ok ([], 0),
        Backlinks := fun _ _ _ => Except.ok ([], 0),
        Top := fun _ _ => Except.ok ([], 0) },
    graphIndexedKeeper :=
      { IsLinkExist := fun link => decide (link = { fromCid := 1, toCid := 2, account := 7 }),
        IsAnyLinkExist := fun f t => decide (f = 1 ∧ t = 2) },
    accountKeeper := sampleBank.accountKeeper,
    AccAddressFromBech32 := fun str =>
      if str = "addr1" then Except.ok [1]
      else if str = "addr9" then Except.ok [9]
      else Except.error "decoding bech32 failed",
    addrString := fun addr => if addr = [1] then "addr1" else "addr9",
    GetEntropy := fun _ => 0,
    GetLuminosity := fun _ => 0,
    GetKarma := fun _ => 0 }

/-- Query keeper whose index shows the arguments it is called with: every
list query answers with the first `perPage` of the entries (2, 22), (1, 11)
and with the total `1000 * page + perPage`. -/
def echoQuery : StateKeeper :=
  { sampleQuery with
    index :=
      { GetRankValue := fun _ => 0,
        Search := fun _ page perPage =>
          Except.ok (List.take perPage [⟨2, 22⟩, ⟨1, 11⟩], 1000 * page + perPage),
        Backlinks := fun _ page perPage =>
          Except.ok (List.take perPage [⟨2, 22⟩, ⟨1, 11⟩], 1000 * page + perPage),
        Top := fun page perPage =>
          Except.ok (List.take perPage [⟨2, 22⟩, ⟨1, 11⟩], 1000 * page + perPage) } }

/-- Keeper state after a load of `sampleBank` under context 0 with nothing
recorded: both maps are `7 ↦ 40, 8 ↦ 50`. -/
def quietState : IndexedKeeper :=
  { maps := some { userTotalStake := StakeMap.set (StakeMap.set ∅ 7 40) 8 50,
                   userNewTotalStake := StakeMap.set (StakeMap.set ∅ 7 40) 8 50 },
    accsToUpdate := [] }

/-- Keeper state whose committed map has the key 9 that the fresh map lacks,
and whose fresh map has the key 1 with value 0 that the committed map lacks.
-/
def staleState : IndexedKeeper :=
  { maps := some { userTotalStake := StakeMap.set ∅ 9 5,
                   userNewTotalStake := StakeMap.set ∅ 1 0 },
    accsToUpdate := [] }

/-! ## Reading and writing a map -/

theorem StakeMap.get_set_self (m : StakeMap) (k : AccNumber) (v : Nat) :
    StakeMap.get (StakeMap.set m k v) k = v := by
  simp [StakeMap.get, StakeMap.set, AList.lookup_insert]

theorem StakeMap.get_set_of_ne (m : StakeMap) {k j : AccNumber} (v : Nat) (h : j ≠ k) :
    StakeMap.get (StakeMap.set m k v) j = StakeMap.get m j := by
  simp [StakeMap.get, StakeMap.set, AList.lookup_insert_ne h]

theorem StakeMap.get_empty (k : AccNumber) : StakeMap.get ∅ k = 0 := by
  simp [StakeMap.get]

theorem StakeMap.get_of_mem_entries (m : StakeMap) {k : AccNumber} {v : Nat}
    (h : (⟨k, v⟩ : Sigma fun _ : AccNumber => Nat) ∈ m.entries) : StakeMap.get m k = v := by
  have h1 : m.lookup k = some v := AList.mem_lookup_iff.mpr h
  simp [StakeMap.get, h1]

theorem StakeMap.mem_entries_of_mem_keys (m : StakeMap) {k : AccNumber} (h : k ∈ m.keys) :
    (⟨k, StakeMap.get m k⟩ : Sigma fun _ : AccNumber => Nat) ∈ m.entries := by
  obtain ⟨v, hv⟩ := List.exists_of_mem_keys h
  have h1 := StakeMap.get_of_mem_entries m hv
  rw [h1]
  exact hv

theorem StakeMap.has_iff (m : StakeMap) (k : AccNumber) :
    StakeMap.has m k = true ↔ k ∈ m.keys := by
  unfold StakeMap.has
  rw [AList.lookup_isSome, AList.mem_keys]

/-! ## The loop of `FixUserStake` -/

theorem fixLoop_flag_of_true (l : List (Sigma fun _ : AccNumber => Nat)) (c : StakeMap) :
    (fixLoop l c true).2 = true := by
  induction l generalizing c with
  | nil => rfl
  | cons e rest ih =>
    obtain ⟨k, v⟩ := e
    unfold fixLoop
    split
    · exact ih _
    · exact ih _

theorem fixLoop_flag (l : List (Sigma fun _ : AccNumber => Nat)) (c : StakeMap) (b : Bool) :
    (fixLoop l c b).2 = true ↔ b = true ∨ ∃ e ∈ l, StakeMap.get c e.1 ≠ e.2 := by
  induction l generalizing c b with
  | nil => simp [fixLoop]
  | cons e rest ih =>
    obtain ⟨k, v⟩ := e
    unfold fixLoop
    split
    · rename_i hne
      constructor
      · intro _
        exact Or.inr ⟨⟨k, v⟩, List.mem_cons_self _ _, hne⟩
      · intro _
        exact fixLoop_flag_of_true rest _
    · rename_i heq
      have heq1 : StakeMap.get c k = v := not_not.mp heq
      rw [ih c b]
      constructor
      · rintro (hb | ⟨e, he, hd⟩)
        · exact Or.inl hb
        · exact Or.inr ⟨e, List.mem_cons_of_mem _ he, hd⟩
      · rintro (hb | ⟨e, he, hd⟩)
        · exact Or.inl hb
        · rcases List.mem_cons.mp he with rfl | he1
          · exact absurd heq1 hd
          · exact Or.inr ⟨e, he1, hd⟩

theorem fixLoop_get (l : List (Sigma fun _ : AccNumber => Nat)) (hl : l.NodupKeys)
    (c : StakeMap) (b : Bool) (j : AccNumber) :
    StakeMap.get (fixLoop l c b).1 j =
      match List.dlookup j l with
      | some v => v
      | none => StakeMap.get c j := by
  induction l generalizing c b with
  | nil => simp [fixLoop]
  | cons e rest ih =>
    obtain ⟨k, v⟩ := e
    obtain ⟨hk, hrest⟩ := List.nodupKeys_cons.mp hl
    have hk1 : k ∉ rest.keys := hk
    unfold fixLoop
    by_cases hj : j = k
    · subst hj
      have hnone : List.dlookup j rest = none := List.dlookup_eq_none.mpr hk1
      rw [List.dlookup_cons_eq]
      split
      · rw [ih hrest, hnone]
        exact StakeMap.get_set_self c j v
      · rename_i heq
        rw [ih hrest, hnone]
        exact not_not.mp heq
    · rw [List.dlookup_cons_ne rest ⟨k, v⟩ hj]
      split
      · rw [ih hrest]
        rw [StakeMap.get_set_of_ne c v hj]
      · rw [ih hrest]

/-- Iteration order of the Go `range` loop is immaterial: visiting the entries
of the fresh map in any other order gives the same flag and a committed map
with the same value under every key. -/
theorem fixLoop_order_irrelevant (l l2 : List (Sigma fun _ : AccNumber => Nat))
    (hl : l.NodupKeys) (hp : l.Perm l2) (c : StakeMap) (b : Bool) :
    (fixLoop l2 c b).2 = (fixLoop l c b).2 ∧
      ∀ j, StakeMap.get (fixLoop l2 c b).1 j = StakeMap.get (fixLoop l c b).1 j := by
  have hl2 : l2.NodupKeys := (List.perm_nodupKeys hp).mp hl
  constructor
  · rw [Bool.eq_iff_iff, fixLoop_flag, fixLoop_flag]
    constructor
    · rintro (hb | ⟨e, he, hd⟩)
      · exact Or.inl hb
      · exact Or.inr ⟨e, hp.mem_iff.mpr he, hd⟩
    · rintro (hb | ⟨e, he, hd⟩)
      · exact Or.inl hb
      · exact Or.inr ⟨e, hp.mem_iff.mp he, hd⟩
  · intro j
    rw [fixLoop_get l2 hl2, fixLoop_get l hl, List.perm_dlookup j hl hl2 hp]

/-! ## `FixUserStake` through the map readers -/

theorem FixUserStake_flag (s : IndexedKeeper) :
    (FixUserStake s).1 = (fixLoop s.userNewTotalStake.entries s.userTotalStake false).2 := by
  obtain ⟨maps, accs⟩ := s
  cases maps <;> rfl

theorem FixUserStake_committed (s : IndexedKeeper) :
    (FixUserStake s).2.userTotalStake
      = (fixLoop s.userNewTotalStake.entries s.userTotalStake false).1 := by
  obtain ⟨maps, accs⟩ := s
  cases maps <;> rfl

theorem FixUserStake_fresh (s : IndexedKeeper) :
    (FixUserStake s).2.userNewTotalStake = s.userNewTotalStake := by
  obtain ⟨maps, accs⟩ := s
  cases maps <;> rfl

theorem FixUserStake_accsToUpdate (s : IndexedKeeper) :
    (FixUserStake s).2.accsToUpdate = s.accsToUpdate := by
  obtain ⟨maps, accs⟩ := s
  cases maps <;> rfl

theorem FixUserStake_maps_isSome (s : IndexedKeeper) :
    (FixUserStake s).2.maps.isSome = s.maps.isSome := by
  obtain ⟨maps, accs⟩ := s
  cases maps <;> rfl

/-! ## Claims on `FixUserStake` -/

/-- Claim C1. `FixUserStake` returns true exactly when some key of the fresh
map carries a fresh value different from the value the committed map gives
for that key, an absent key reading as 0; in particular it returns false when
the two maps agree on every key. -/
theorem FixUserStake_true_iff_some_key_differs (s : IndexedKeeper) :
    ((FixUserStake s).1 = true ↔
      ∃ k ∈ s.userNewTotalStake.keys,
        StakeMap.get s.userNewTotalStake k ≠ StakeMap.get s.userTotalStake k) ∧
    ((∀ k, StakeMap.get s.userNewTotalStake k = StakeMap.get s.userTotalStake k) →
      (FixUserStake s).1 = false) := by
  have key : (FixUserStake s).1 = true ↔
      ∃ k ∈ s.userNewTotalStake.keys,
        StakeMap.get s.userNewTotalStake k ≠ StakeMap.get s.userTotalStake k := by
    rw [FixUserStake_flag, fixLoop_flag]
    constructor
    · rintro (hb | ⟨⟨k, v⟩, he, hd⟩)
      · exact absurd hb (by decide)
      · refine ⟨k, List.mem_keys_of_mem he, ?_⟩
        rw [StakeMap.get_of_mem_entries _ he]
        exact fun h => hd h.symm
    · rintro ⟨k, hk, hd⟩
      exact Or.inr ⟨⟨k, StakeMap.get s.userNewTotalStake k⟩,
        StakeMap.mem_entries_of_mem_keys _ hk, fun h => hd h.symm⟩
  refine ⟨key, fun hall => ?_⟩
  rw [← Bool.not_eq_true, key]
  rintro ⟨k, _, hd⟩
  exact hd (hall k)

/-- Witness for C1 on a state where key 2 differs and on a state where the maps
are equal. -/
theorem FixUserStake_true_iff_some_key_differs_witness :
    (FixUserStake sampleState).1 = true ∧ (FixUserStake agreedState).1 = false :=
  ⟨(FixUserStake_true_iff_some_key_differs sampleState).1.mpr ⟨2, by decide, by decide⟩,
   (FixUserStake_true_iff_some_key_differs agreedState).2 (fun _ => rfl)⟩

/-- Claim C2. After `FixUserStake` the fresh map is the one before the call, and
for every key of the fresh map the committed map gives the fresh value. -/
theorem FixUserStake_committed_agrees_on_fresh_keys (s : IndexedKeeper) :
    (FixUserStake s).2.userNewTotalStake = s.userNewTotalStake ∧
    ∀ k ∈ s.userNewTotalStake.keys,
      StakeMap.get (FixUserStake s).2.userTotalStake k = StakeMap.get s.userNewTotalStake k := by
  refine ⟨FixUserStake_fresh s, fun k hk => ?_⟩
  rw [FixUserStake_committed, fixLoop_get _ s.userNewTotalStake.nodupKeys]
  have hmem := StakeMap.mem_entries_of_mem_keys _ hk
  have hlook : List.dlookup k s.userNewTotalStake.entries
      = some (StakeMap.get s.userNewTotalStake k) :=
    (List.mem_dlookup_iff s.userNewTotalStake.nodupKeys).mpr hmem
  rw [hlook]

/-- Witness for C2: key 2, absent from the committed map of the sample state. -/
theorem FixUserStake_committed_agrees_on_fresh_keys_witness :
    StakeMap.get (FixUserStake sampleState).2.userTotalStake 2
      = StakeMap.get sampleState.userNewTotalStake 2 :=
  (FixUserStake_committed_agrees_on_fresh_keys sampleState).2 2 (by decide)

/-! ## The loop of `EndBlocker` -/

theorem flushAllocated_isSome (k : Keeper) (ctx : Context) (l : List AccAddress) (m : StakeMap)
    (hreg : ∀ a ∈ l, ∃ acc, k.accountKeeper.GetAccount ctx a = some acc) :
    ∃ m2, flushAllocated k ctx l m = some m2 := by
  induction l generalizing m with
  | nil => exact ⟨m, rfl⟩
  | cons a rest ih =>
    obtain ⟨acc, hacc⟩ := hreg a (List.mem_cons_self _ _)
    have hrest : ∀ b ∈ rest, ∃ acc, k.accountKeeper.GetAccount ctx b = some acc :=
      fun b hb => hreg b (List.mem_cons_of_mem _ hb)
    simp only [flushAllocated, hacc]
    exact ih _ hrest

theorem flushAllocated_registered (k : Keeper) (ctx : Context) (l : List AccAddress)
    (m m2 : StakeMap) (h : flushAllocated k ctx l m = some m2) :
    ∀ a ∈ l, ∃ acc, k.accountKeeper.GetAccount ctx a = some acc := by
  induction l generalizing m with
  | nil => intro a ha; cases ha
  | cons b rest ih =>
    intro a ha
    cases hb : k.accountKeeper.GetAccount ctx b with
    | none => simp [flushAllocated, hb] at h
    | some acc =>
      simp only [flushAllocated, hb] at h
      rcases List.mem_cons.mp ha with rfl | ha1
      · exact ⟨acc, hb⟩
      · exact ih _ h a ha1

theorem flushAllocated_get_untouched (k : Keeper) (ctx : Context) (l : List AccAddress)
    (m m2 : StakeMap) (h : flushAllocated k ctx l m = some m2) (j : AccNumber)
    (hj : ∀ a ∈ l, ∀ acc, k.accountKeeper.GetAccount ctx a = some acc →
      acc.GetAccountNumber ≠ j) :
    StakeMap.get m2 j = StakeMap.get m j := by
  induction l generalizing m with
  | nil =>
    simp only [flushAllocated, Option.some.injEq] at h
    rw [h]
  | cons b rest ih =>
    cases hb : k.accountKeeper.GetAccount ctx b with
    | none => simp [flushAllocated, hb] at h
    | some acc =>
      simp only [flushAllocated, hb] at h
      have hne : j ≠ acc.GetAccountNumber :=
        fun e => hj b (List.mem_cons_self _ _) acc hb e.symm
      rw [ih _ h (fun a ha => hj a (List.mem_cons_of_mem _ ha))]
      exact StakeMap.get_set_of_ne m _ hne

theorem flushAllocated_get_touched (k : Keeper) (ctx : Context) (l : List AccAddress)
    (m m2 : StakeMap) (h : flushAllocated k ctx l m = some m2)
    (hinj : ∀ a ∈ l, ∀ b ∈ l, ∀ acca accb, k.accountKeeper.GetAccount ctx a = some acca →
      k.accountKeeper.GetAccount ctx b = some accb →
      acca.GetAccountNumber = accb.GetAccountNumber → a = b) :
    ∀ a ∈ l, ∀ acc, k.accountKeeper.GetAccount ctx a = some acc →
      StakeMap.get m2 acc.GetAccountNumber = uint64 (k.GetAccountTotalStake ctx a) := by
  induction l generalizing m with
  | nil => intro a ha; cases ha
  | cons b rest ih =>
    intro a ha acc hacc
    cases hb : k.accountKeeper.GetAccount ctx b with
    | none => simp [flushAllocated, hb] at h
    | some accb =>
      simp only [flushAllocated, hb] at h
      have hinj1 : ∀ a ∈ rest, ∀ c ∈ rest, ∀ acca accc,
          k.accountKeeper.GetAccount ctx a = some acca →
          k.accountKeeper.GetAccount ctx c = some accc →
          acca.GetAccountNumber = accc.GetAccountNumber → a = c :=
        fun a ha c hc => hinj a (List.mem_cons_of_mem _ ha) c (List.mem_cons_of_mem _ hc)
      by_cases hin : a ∈ rest
      · exact ih _ h hinj1 a hin acc hacc
      · have hab : a = b := by
          rcases List.mem_cons.mp ha with e | e
          · exact e
          · exact absurd e hin
        subst hab
        have hacc1 : accb = acc := by
          rw [hb] at hacc
          exact Option.some.inj hacc
        subst hacc1
        rw [flushAllocated_get_untouched k ctx rest _ m2 h accb.GetAccountNumber]
        · exact StakeMap.get_set_self m _ _
        · intro c hc accc hcc e
          have hca : c = a := hinj c (List.mem_cons_of_mem _ hc) a ha accc accb hcc hb e
          exact hin (hca ▸ hc)

theorem flushLoop_allocated (k : Keeper) (ctx : Context) (l : List AccAddress)
    (m : StakeMaps) (accs : List AccAddress) :
    flushLoop k ctx l { maps := some m, accsToUpdate := accs }
      = (flushAllocated k ctx l m.userNewTotalStake).map
          (fun f => { maps := some { m with userNewTotalStake := f }, accsToUpdate := accs }) := by
  induction l generalizing m with
  | nil => rfl
  | cons a rest ih =>
    cases ha : k.accountKeeper.GetAccount ctx a with
    | none => simp only [flushLoop, flushAllocated, ha, Option.map_none']
    | some acc =>
      simp only [flushLoop, flushAllocated, ha, writeFresh]
      exact ih _

theorem flushLoop_nil_maps (k : Keeper) (ctx : Context) (a : AccAddress)
    (rest accs : List AccAddress) :
    flushLoop k ctx (a :: rest) { maps := none, accsToUpdate := accs } = none := by
  cases ha : k.accountKeeper.GetAccount ctx a <;> simp only [flushLoop, ha, writeFresh]

theorem EndBlocker_allocated (k : Keeper) (ctx : Context) (m : StakeMaps)
    (accs : List AccAddress) :
    EndBlocker k ctx { maps := some m, accsToUpdate := accs }
      = (flushAllocated k ctx accs m.userNewTotalStake).map
          (fun f => { maps := some { m with userNewTotalStake := f }, accsToUpdate := [] }) := by
  unfold EndBlocker
  rw [flushLoop_allocated]
  cases flushAllocated k ctx accs m.userNewTotalStake <;> rfl

theorem EndBlocker_nil_maps (k : Keeper) (ctx : Context) (a : AccAddress)
    (rest : List AccAddress) :
    EndBlocker k ctx { maps := none, accsToUpdate := a :: rest } = none := by
  unfold EndBlocker
  rw [flushLoop_nil_maps]

theorem EndBlocker_of_nothing_recorded (k : Keeper) (ctx : Context) (s : IndexedKeeper)
    (h : s.accsToUpdate = []) : EndBlocker k ctx s = some s := by
  obtain ⟨maps, accs⟩ := s
  simp only at h
  subst h
  rfl

theorem UpdateStake_allocated (acc : AccNumber) (d : Int) (m : StakeMaps)
    (accs : List AccAddress) :
    UpdateStake acc d { maps := some m, accsToUpdate := accs }
      = some { maps := some { m with userNewTotalStake := (StakeMap.set m.userNewTotalStake acc
                 (addUint64 (StakeMap.get m.userNewTotalStake acc) (uint64 d))) },
               accsToUpdate := accs } :=
  rfl

theorem hook_maps (f t : Option AccAddress) (s : IndexedKeeper) :
    (hook f t s).maps = s.maps := by
  cases f <;> cases t <;> rfl

theorem accountNumberOf_eq_some (k : Keeper) (ctx : Context) (a : AccAddress) (n : AccNumber) :
    accountNumberOf k ctx a = some n ↔
      ∃ acc, k.accountKeeper.GetAccount ctx a = some acc ∧ acc.GetAccountNumber = n := by
  unfold accountNumberOf
  cases k.accountKeeper.GetAccount ctx a <;> simp

theorem registered_of_ne_none (k : Keeper) (ctx : Context) (l : List AccAddress)
    (hreg : ∀ a ∈ l, k.accountKeeper.GetAccount ctx a ≠ none) :
    ∀ a ∈ l, ∃ acc, k.accountKeeper.GetAccount ctx a = some acc :=
  fun a ha => Option.ne_none_iff_exists'.mp (hreg a ha)

theorem uint64_of_inRange (x : Int) (h0 : 0 ≤ x) (h1 : x < 2 ^ 64) : (uint64 x : Int) = x := by
  unfold uint64
  rw [Int.toNat_of_nonneg (Int.emod_nonneg x (by norm_num))]
  exact Int.emod_eq_of_lt h0 h1

/-! ## Further facts on the two loops -/

theorem StakeMap.get_eq_zero_of_not_mem (m : StakeMap) {k : AccNumber} (h : k ∉ m.keys) :
    StakeMap.get m k = 0 := by
  have h1 : m.lookup k = none := AList.lookup_eq_none.mpr (fun hm => h (AList.mem_keys.mp hm))
  simp [StakeMap.get, h1]

theorem StakeMap.mem_keys_set (m : StakeMap) (k j : AccNumber) (v : Nat) :
    j ∈ (StakeMap.set m k v).keys ↔ j = k ∨ j ∈ m.keys := by
  rw [← AList.mem_keys, ← AList.mem_keys]
  exact AList.mem_insert m

theorem fixLoop_lookup_untouched (l : List (Sigma fun _ : AccNumber => Nat)) (c : StakeMap)
    (b : Bool) (j : AccNumber) (hj : j ∉ l.keys) :
    (fixLoop l c b).1.lookup j = c.lookup j := by
  induction l generalizing c b with
  | nil => rfl
  | cons e rest ih =>
    obtain ⟨k, v⟩ := e
    have hne : j ≠ k := fun e => hj (by simp [List.keys, e])
    have hrest : j ∉ rest.keys := fun hm => hj (by
      simp only [List.keys_cons, List.mem_cons]
      exact Or.inr hm)
    unfold fixLoop
    split
    · rw [ih _ _ hrest]
      exact AList.lookup_insert_ne hne
    · exact ih _ _ hrest

theorem fixLoop_of_agree (l : List (Sigma fun _ : AccNumber => Nat)) (c : StakeMap) (b : Bool)
    (h : ∀ e ∈ l, StakeMap.get c e.1 = e.2) : fixLoop l c b = (c, b) := by
  induction l generalizing b with
  | nil => rfl
  | cons e rest ih =>
    obtain ⟨k, v⟩ := e
    have hk : StakeMap.get c k = v := h ⟨k, v⟩ (List.mem_cons_self _ _)
    unfold fixLoop
    rw [if_neg (not_not.mpr hk)]
    exact ih b (fun e he => h e (List.mem_cons_of_mem _ he))

theorem fixLoop_fst_of_flag_false (l : List (Sigma fun _ : AccNumber => Nat)) (c : StakeMap)
    (b : Bool) (h : (fixLoop l c b).2 = false) : (fixLoop l c b).1 = c := by
  have hagree : ∀ e ∈ l, StakeMap.get c e.1 = e.2 := by
    intro e he
    by_contra hd
    have ht : (fixLoop l c b).2 = true := (fixLoop_flag l c b).mpr (Or.inr ⟨e, he, hd⟩)
    rw [h] at ht
    cases ht
  rw [fixLoop_of_agree l c b hagree]

theorem fixLoop_mem_keys (l : List (Sigma fun _ : AccNumber => Nat)) (hl : l.NodupKeys)
    (c : StakeMap) (b : Bool) (j : AccNumber) :
    j ∈ (fixLoop l c b).1.keys ↔
      j ∈ c.keys ∨ ∃ e ∈ l, e.1 = j ∧ StakeMap.get c j ≠ e.2 := by
  induction l generalizing c b with
  | nil => simp [fixLoop]
  | cons e rest ih =>
    obtain ⟨k, v⟩ := e
    obtain ⟨hk, hrest⟩ := List.nodupKeys_cons.mp hl
    have hk1 : k ∉ rest.keys := hk
    unfold fixLoop
    split
    · rename_i hne
      rw [ih hrest, StakeMap.mem_keys_set]
      constructor
      · rintro ((rfl | hm) | ⟨e, he, rfl, hd⟩)
        · exact Or.inr ⟨⟨j, v⟩, List.mem_cons_self _ _, rfl, hne⟩
        · exact Or.inl hm
        · have hek : e.1 ≠ k := fun h => hk1 (h ▸ List.mem_keys_of_mem he)
          rw [StakeMap.get_set_of_ne c v hek] at hd
          exact Or.inr ⟨e, List.mem_cons_of_mem _ he, rfl, hd⟩
      · rintro (hm | ⟨e, he, rfl, hd⟩)
        · exact Or.inl (Or.inr hm)
        · rcases List.mem_cons.mp he with rfl | he1
          · exact Or.inl (Or.inl rfl)
          · have hek : e.1 ≠ k := fun h => hk1 (h ▸ List.mem_keys_of_mem he1)
            refine Or.inr ⟨e, he1, rfl, ?_⟩
            rw [StakeMap.get_set_of_ne c v hek]
            exact hd
    · rename_i heq
      have heq1 : StakeMap.get c k = v := not_not.mp heq
      rw [ih hrest]
      constructor
      · rintro (hm | ⟨e, he, rfl, hd⟩)
        · exact Or.inl hm
        · exact Or.inr ⟨e, List.mem_cons_of_mem _ he, rfl, hd⟩
      · rintro (hm | ⟨e, he, rfl, hd⟩)
        · exact Or.inl hm
        · rcases List.mem_cons.mp he with rfl | he1
          · exact absurd heq1 hd
          · exact Or.inr ⟨e, he1, rfl, hd⟩

theorem flushAllocated_lookup_untouched (k : Keeper) (ctx : Context) (l : List AccAddress)
    (m m2 : StakeMap) (h : flushAllocated k ctx l m = some m2) (j : AccNumber)
    (hj : ∀ a ∈ l, accountNumberOf k ctx a ≠ some j) :
    m2.lookup j = m.lookup j := by
  induction l generalizing m with
  | nil =>
    simp only [flushAllocated, Option.some.injEq] at h
    rw [h]
  | cons b rest ih =>
    cases hb : k.accountKeeper.GetAccount ctx b with
    | none => simp [flushAllocated, hb] at h
    | some acc =>
      simp only [flushAllocated, hb] at h
      have hne : j ≠ acc.GetAccountNumber := by
        intro e
        apply hj b (List.mem_cons_self _ _)
        rw [(accountNumberOf_eq_some k ctx b j).mpr ⟨acc, hb, e.symm⟩]
      rw [ih _ h (fun a ha => hj a (List.mem_cons_of_mem _ ha))]
      exact AList.lookup_insert_ne hne

theorem flushAllocated_eq_none_iff (k : Keeper) (ctx : Context) (l : List AccAddress)
    (m : StakeMap) :
    flushAllocated k ctx l m = none ↔ ∃ a ∈ l, k.accountKeeper.GetAccount ctx a = none := by
  constructor
  · intro h
    by_contra hno
    have hreg : ∀ a ∈ l, ∃ acc, k.accountKeeper.GetAccount ctx a = some acc := by
      intro a ha
      cases hacc : k.accountKeeper.GetAccount ctx a with
      | none => exact absurd ⟨a, ha, hacc⟩ hno
      | some acc => exact ⟨acc, rfl⟩
    obtain ⟨m2, hm2⟩ := flushAllocated_isSome k ctx l m hreg
    rw [h] at hm2
    cases hm2
  · rintro ⟨a, ha, hnone⟩
    cases hres : flushAllocated k ctx l m with
    | none => rfl
    | some m2 =>
      obtain ⟨acc, hacc⟩ := flushAllocated_registered k ctx l m m2 hres a ha
      rw [hnone] at hacc
      cases hacc

theorem injective_numbers (k : Keeper) (ctx : Context) (l : List AccAddress)
    (hinj : ∀ a ∈ l, ∀ b ∈ l, accountNumberOf k ctx a = accountNumberOf k ctx b → a = b) :
    ∀ a ∈ l, ∀ b ∈ l, ∀ acca accb, k.accountKeeper.GetAccount ctx a = some acca →
      k.accountKeeper.GetAccount ctx b = some accb →
      acca.GetAccountNumber = accb.GetAccountNumber → a = b := by
  intro a ha b hb acca accb hca hcb e
  apply hinj a ha b hb
  rw [(accountNumberOf_eq_some k ctx a acca.GetAccountNumber).mpr ⟨acca, hca, rfl⟩,
    (accountNumberOf_eq_some k ctx b acca.GetAccountNumber).mpr ⟨accb, hcb, e.symm⟩]

theorem runCalls_allocated (calls : List Call) (s : IndexedKeeper) (hload : s.maps ≠ none) :
    ∃ s1, runCalls calls s = some s1 ∧ s1.maps ≠ none ∧
      (∀ a ∈ s.accsToUpdate, a ∈ s1.accsToUpdate) ∧
      (∀ f t, Call.transfer f t ∈ calls → ∀ a, f = some a ∨ t = some a →
        a ∈ s1.accsToUpdate) := by
  induction calls generalizing s with
  | nil => exact ⟨s, rfl, hload, fun a ha => ha, fun f t hc => by cases hc⟩
  | cons c rest ih =>
    cases c with
    | transfer f0 t0 =>
      have hl : (hook f0 t0 s).maps ≠ none := by rw [hook_maps]; exact hload
      obtain ⟨s1, h1, h2, h3, h4⟩ := ih (hook f0 t0 s) hl
      have hmono : ∀ a ∈ s.accsToUpdate, a ∈ (hook f0 t0 s).accsToUpdate := by
        intro a ha
        cases f0 <;> cases t0 <;> simp [hook, ha]
      refine ⟨s1, h1, h2, fun a ha => h3 a (hmono a ha), ?_⟩
      intro f t hc a hft
      rcases List.mem_cons.mp hc with e | e
      · injection e with e1 e2
        subst e1 e2
        apply h3
        rcases hft with rfl | rfl
        · cases t <;> simp [hook]
        · cases f <;> simp [hook]
      · exact h4 f t e a hft
    | delta acc stake =>
      obtain ⟨maps, accs⟩ := s
      cases maps with
      | none => exact absurd rfl hload
      | some m =>
        obtain ⟨s1, h1, h2, h3, h4⟩ := ih
          { maps := some { m with userNewTotalStake := (StakeMap.set m.userNewTotalStake acc
              (addUint64 (StakeMap.get m.userNewTotalStake acc) (uint64 stake))) },
            accsToUpdate := accs } (by simp)
        refine ⟨s1, ?_, h2, h3, ?_⟩
        · simp only [runCalls, UpdateStake_allocated]
          exact h1
        · intro f t hc a hft
          rcases List.mem_cons.mp hc with e | e
          · cases e
          · exact h4 f t e a hft

theorem EndBlocker_values (k : Keeper) (ctx : Context) (s : IndexedKeeper)
    (hload : s.maps ≠ none)
    (hreg : ∀ a ∈ s.accsToUpdate, k.accountKeeper.GetAccount ctx a ≠ none)
    (hinj : ∀ a ∈ s.accsToUpdate, ∀ b ∈ s.accsToUpdate,
      accountNumberOf k ctx a = accountNumberOf k ctx b → a = b) :
    ∃ s2, EndBlocker k ctx s = some s2 ∧ s2.maps ≠ none ∧ s2.accsToUpdate = [] ∧
      s2.userTotalStake = s.userTotalStake ∧
      (∀ a ∈ s.accsToUpdate, ∀ n, accountNumberOf k ctx a = some n →
        StakeMap.get s2.userNewTotalStake n = uint64 (k.GetAccountTotalStake ctx a)) ∧
      (∀ j, (∀ a ∈ s.accsToUpdate, accountNumberOf k ctx a ≠ some j) →
        s2.userNewTotalStake.lookup j = s.userNewTotalStake.lookup j) := by
  obtain ⟨maps, accs⟩ := s
  cases maps with
  | none => exact absurd rfl hload
  | some m =>
    obtain ⟨f, hf⟩ := flushAllocated_isSome k ctx accs m.userNewTotalStake
      (registered_of_ne_none k ctx _ hreg)
    refine ⟨{ maps := some { m with userNewTotalStake := f }, accsToUpdate := [] }, ?_,
      by simp, rfl, rfl, ?_, ?_⟩
    · rw [EndBlocker_allocated, hf]
      rfl
    · intro a ha n hn
      obtain ⟨acc, hacc, rfl⟩ := (accountNumberOf_eq_some k ctx a n).mp hn
      exact flushAllocated_get_touched k ctx accs m.userNewTotalStake f hf
        (injective_numbers k ctx accs hinj) a ha acc hacc
    · intro j hj
      exact flushAllocated_lookup_untouched k ctx accs _ f hf j hj

theorem EndBlocker_eq_none_iff (k : Keeper) (ctx : Context) (s : IndexedKeeper) :
    EndBlocker k ctx s = none ↔
      (∃ a ∈ s.accsToUpdate, k.accountKeeper.GetAccount ctx a = none) ∨
      (s.maps = none ∧ s.accsToUpdate ≠ []) := by
  obtain ⟨maps, accs⟩ := s
  cases maps with
  | some m =>
    rw [EndBlocker_allocated, Option.map_eq_none', flushAllocated_eq_none_iff]
    simp
  | none =>
    cases accs with
    | nil =>
      rw [EndBlocker_of_nothing_recorded k ctx _ rfl]
      simp
    | cons a rest =>
      rw [EndBlocker_nil_maps]
      simp

/-! ## Claims on the hook, `UpdateStake`, `EndBlocker` and `Load` -/

/-- Counterexample to C3 as stated. On the keeper `NewIndexedKeeper` returns,
whose maps are nil until `Load` runs, the hook records the registered address
`[1]` and `EndBlocker` then faults on the write into the nil fresh map; an
`UpdateStake` on that keeper faults as well. -/
theorem EndBlocker_fresh_is_total_stake_counterexample :
    sampleBank.accountKeeper.GetAccount 0 [1] ≠ none ∧
    (hook (some [1]) none NewIndexedKeeper).accsToUpdate = [[1]] ∧
    EndBlocker sampleBank 0 (hook (some [1]) none NewIndexedKeeper) = none ∧
    runCalls [Call.delta 7 5] NewIndexedKeeper = none := by
  decide

/-- Claim C3, amended. Let `Load` have allocated the maps, and let any sequence
of hook calls and `UpdateStake` calls run. The sequence completes and every
address handed to the hook is in the ChangeSet. If every recorded address is
registered under `ctx` and distinct recorded addresses have distinct account
numbers, then `EndBlocker` completes, and for every address of the ChangeSet
the fresh map holds, under the account number of the address, the total stake
of the address under `ctx` as a `uint64`; it is that stake itself whenever
the stake lies in the `uint64` range. -/
theorem EndBlocker_fresh_is_total_stake (k : Keeper) (ctx : Context) (s0 : IndexedKeeper)
    (calls : List Call) (hload : s0.maps ≠ none) :
    ∃ s1, runCalls calls s0 = some s1 ∧
      (∀ f t, Call.transfer f t ∈ calls → ∀ a, f = some a ∨ t = some a →
        a ∈ s1.accsToUpdate) ∧
      ((∀ a ∈ s1.accsToUpdate, k.accountKeeper.GetAccount ctx a ≠ none) →
       (∀ a ∈ s1.accsToUpdate, ∀ b ∈ s1.accsToUpdate,
          accountNumberOf k ctx a = accountNumberOf k ctx b → a = b) →
        ∃ s2, EndBlocker k ctx s1 = some s2 ∧
          ∀ a ∈ s1.accsToUpdate, ∀ n, accountNumberOf k ctx a = some n →
            StakeMap.get s2.userNewTotalStake n = uint64 (k.GetAccountTotalStake ctx a) ∧
            (0 ≤ k.GetAccountTotalStake ctx a → k.GetAccountTotalStake ctx a < 2 ^ 64 →
              (StakeMap.get s2.userNewTotalStake n : Int) = k.GetAccountTotalStake ctx a)) := by
  obtain ⟨s1, h1, h2, _, h4⟩ := runCalls_allocated calls s0 hload
  refine ⟨s1, h1, h4, fun hreg hinj => ?_⟩
  obtain ⟨s2, h5, _, _, _, h6, _⟩ := EndBlocker_values k ctx s1 h2 hreg hinj
  refine ⟨s2, h5, fun a ha n hn => ⟨h6 a ha n hn, fun h0 hlt => ?_⟩⟩
  rw [h6 a ha n hn]
  exact uint64_of_inRange _ h0 hlt

/-- Witness for the amended C3: from the sample state the calls record address
`[1]` three times in all and put a delta on its account 7; the flush stores
its total stake 40. -/
theorem EndBlocker_fresh_is_total_stake_witness :
    ∃ s2, EndBlocker sampleBank 0 sampleAfterCalls = some s2 ∧
      StakeMap.get s2.userNewTotalStake 7 = 40 := by
  obtain ⟨s1, h1, _, h3⟩ := EndBlocker_fresh_is_total_stake sampleBank 0 sampleState sampleCalls
    (by decide)
  have hs : runCalls sampleCalls sampleState = some sampleAfterCalls := by decide
  rw [hs] at h1
  cases h1
  obtain ⟨s2, h4, h5⟩ := h3 (by decide) (by decide)
  exact ⟨s2, h4, (h5 [1] (by decide) 7 (by decide)).1⟩

/-! ## The iteration of `Load` -/

theorem iterateAccounts_collect_cons (k : Keeper) (ctx : Context) (a : Account)
    (rest : List Account) (m : StakeMap) :
    iterateAccounts (getCollectFunc k ctx) (a :: rest) m =
      iterateAccounts (getCollectFunc k ctx) rest
        (StakeMap.set m a.GetAccountNumber (uint64 (k.GetAccountTotalStake ctx a.GetAddress))) :=
  rfl

theorem collect_get_untouched (k : Keeper) (ctx : Context) (l : List Account) (m : StakeMap)
    (j : AccNumber) (hj : ∀ a ∈ l, a.GetAccountNumber ≠ j) :
    StakeMap.get (iterateAccounts (getCollectFunc k ctx) l m) j = StakeMap.get m j := by
  induction l generalizing m with
  | nil => rfl
  | cons a rest ih =>
    rw [iterateAccounts_collect_cons, ih _ (fun b hb => hj b (List.mem_cons_of_mem _ hb))]
    exact StakeMap.get_set_of_ne m _ (fun e => hj a (List.mem_cons_self _ _) e.symm)

theorem collect_get (k : Keeper) (ctx : Context) (l : List Account) (m : StakeMap)
    (hinj : ∀ a ∈ l, ∀ b ∈ l, a.GetAccountNumber = b.GetAccountNumber → a = b) :
    ∀ a ∈ l, StakeMap.get (iterateAccounts (getCollectFunc k ctx) l m) a.GetAccountNumber
      = uint64 (k.GetAccountTotalStake ctx a.GetAddress) := by
  induction l generalizing m with
  | nil => intro a ha; cases ha
  | cons b rest ih =>
    intro a ha
    rw [iterateAccounts_collect_cons]
    by_cases hin : a ∈ rest
    · exact ih _ (fun x hx y hy => hinj x (List.mem_cons_of_mem _ hx) y
        (List.mem_cons_of_mem _ hy)) a hin
    · have hab : a = b := by
        rcases List.mem_cons.mp ha with e | e
        · exact e
        · exact absurd e hin
      subst hab
      rw [collect_get_untouched]
      · exact StakeMap.get_set_self m _ _
      · intro c hc e
        exact hin (hinj c (List.mem_cons_of_mem _ hc) a ha e ▸ hc)

theorem collect_keys (k : Keeper) (ctx : Context) (l : List Account) (m : StakeMap)
    (j : AccNumber) :
    j ∈ (iterateAccounts (getCollectFunc k ctx) l m).keys ↔
      j ∈ m.keys ∨ ∃ a ∈ l, a.GetAccountNumber = j := by
  induction l generalizing m with
  | nil => simp [iterateAccounts]
  | cons a rest ih =>
    rw [iterateAccounts_collect_cons, ih]
    have hset : j ∈ (StakeMap.set m a.GetAccountNumber
        (uint64 (k.GetAccountTotalStake ctx a.GetAddress))).keys ↔
        j = a.GetAccountNumber ∨ j ∈ m.keys := by
      rw [← AList.mem_keys, ← AList.mem_keys]
      exact AList.mem_insert m
    rw [hset]
    constructor
    · rintro ((e | hm) | ⟨b, hb, e⟩)
      · exact Or.inr ⟨a, List.mem_cons_self _ _, e.symm⟩
      · exact Or.inl hm
      · exact Or.inr ⟨b, List.mem_cons_of_mem _ hb, e⟩
    · rintro (hm | ⟨b, hb, e⟩)
      · exact Or.inl (Or.inr hm)
      · rcases List.mem_cons.mp hb with rfl | hb1
        · exact Or.inl (Or.inl e.symm)
        · exact Or.inr ⟨b, hb1, e⟩

/-- Claim C4. After `Load`, for every account the registry iterates the
committed map holds its total stake under `rankCtx` and the fresh map its
total stake under `freshCtx`, as a `uint64` and so the stake itself when it
lies in the `uint64` range, provided distinct iterated accounts have distinct
numbers. Both maps are replaced in full: their keys
are exactly the numbers of the iterated accounts, and they do not depend on
the maps held before the call. -/
theorem Load_populates_both_maps (k : Keeper) (rankCtx freshCtx : Context) (s : IndexedKeeper)
    (hrank : ∀ a ∈ k.accountKeeper.accounts rankCtx, ∀ b ∈ k.accountKeeper.accounts rankCtx,
      a.GetAccountNumber = b.GetAccountNumber → a = b)
    (hfresh : ∀ a ∈ k.accountKeeper.accounts freshCtx, ∀ b ∈ k.accountKeeper.accounts freshCtx,
      a.GetAccountNumber = b.GetAccountNumber → a = b) :
    (∀ a ∈ k.accountKeeper.accounts rankCtx,
      StakeMap.get (Load k rankCtx freshCtx s).userTotalStake a.GetAccountNumber
        = uint64 (k.GetAccountTotalStake rankCtx a.GetAddress) ∧
      (0 ≤ k.GetAccountTotalStake rankCtx a.GetAddress →
        k.GetAccountTotalStake rankCtx a.GetAddress < 2 ^ 64 →
        (StakeMap.get (Load k rankCtx freshCtx s).userTotalStake a.GetAccountNumber : Int)
          = k.GetAccountTotalStake rankCtx a.GetAddress)) ∧
    (∀ a ∈ k.accountKeeper.accounts freshCtx,
      StakeMap.get (Load k rankCtx freshCtx s).userNewTotalStake a.GetAccountNumber
        = uint64 (k.GetAccountTotalStake freshCtx a.GetAddress) ∧
      (0 ≤ k.GetAccountTotalStake freshCtx a.GetAddress →
        k.GetAccountTotalStake freshCtx a.GetAddress < 2 ^ 64 →
        (StakeMap.get (Load k rankCtx freshCtx s).userNewTotalStake a.GetAccountNumber : Int)
          = k.GetAccountTotalStake freshCtx a.GetAddress)) ∧
    (∀ j, j ∈ (Load k rankCtx freshCtx s).userTotalStake.keys ↔
      ∃ a ∈ k.accountKeeper.accounts rankCtx, a.GetAccountNumber = j) ∧
    (∀ j, j ∈ (Load k rankCtx freshCtx s).userNewTotalStake.keys ↔
      ∃ a ∈ k.accountKeeper.accounts freshCtx, a.GetAccountNumber = j) ∧
    (∀ s2 : IndexedKeeper,
      (Load k rankCtx freshCtx s2).userTotalStake = (Load k rankCtx freshCtx s).userTotalStake ∧
      (Load k rankCtx freshCtx s2).userNewTotalStake
        = (Load k rankCtx freshCtx s).userNewTotalStake) := by
  refine ⟨?_, ?_, ?_, ?_, fun s2 => ⟨rfl, rfl⟩⟩
  · intro a ha
    have h := collect_get k rankCtx _ ∅ hrank a ha
    refine ⟨h, fun h0 h1 => ?_⟩
    show ((StakeMap.get (iterateAccounts (getCollectFunc k rankCtx) _ ∅) _ : Nat) : Int) = _
    rw [h]
    exact uint64_of_inRange _ h0 h1
  · intro a ha
    have h := collect_get k freshCtx _ ∅ hfresh a ha
    refine ⟨h, fun h0 h1 => ?_⟩
    show ((StakeMap.get (iterateAccounts (getCollectFunc k freshCtx) _ ∅) _ : Nat) : Int) = _
    rw [h]
    exact uint64_of_inRange _ h0 h1
  · intro j
    show j ∈ (iterateAccounts (getCollectFunc k rankCtx) _ ∅).keys ↔ _
    rw [collect_keys]
    simp
  · intro j
    show j ∈ (iterateAccounts (getCollectFunc k freshCtx) _ ∅).keys ↔ _
    rw [collect_keys]
    simp

/-- Witness for C4: loading the sample store under contexts 0 and 2 gives
account 7 the committed stake 40 and the fresh stake 42, and drops key 1 of
the previous maps. -/
theorem Load_populates_both_maps_witness :
    (StakeMap.get (Load sampleBank 0 2 sampleState).userTotalStake 7 : Int) = 40 ∧
    (StakeMap.get (Load sampleBank 0 2 sampleState).userNewTotalStake 7 : Int) = 42 ∧
    1 ∉ (Load sampleBank 0 2 sampleState).userNewTotalStake.keys :=
  have h := Load_populates_both_maps sampleBank 0 2 sampleState (by decide) (by decide)
  ⟨(h.1 { GetAddress := [1], GetAccountNumber := 7 } (by decide)).2 (by decide) (by decide),
   (h.2.1 { GetAddress := [1], GetAccountNumber := 7 } (by decide)).2 (by decide) (by decide),
   fun hmem => by
     obtain ⟨a, ha, e⟩ := (h.2.2.2.1 1).mp hmem
     revert a
     decide⟩

theorem addUint64_uint64 (v : Nat) (d : Int) :
    (addUint64 v (uint64 d) : Int) = ((v : Int) + d) % 2 ^ 64 := by
  unfold addUint64 uint64
  push_cast
  omega

/-- Counterexample to C5 as stated. On the keeper `NewIndexedKeeper` returns,
whose fresh map is nil and reads 0 for account 7, `UpdateStake(7, 5)` faults
on the write and gives no new fresh value. -/
theorem UpdateStake_adds_signed_amount_counterexample :
    StakeMap.get NewIndexedKeeper.userNewTotalStake 7 = 0 ∧
    UpdateStake 7 5 NewIndexedKeeper = none := by
  decide

/-- Claim C5, amended. Once `Load` has allocated the maps, `UpdateStake` adds
the signed amount to the fresh value of the account: with `v` the fresh value
before (0 when absent) and `d` any signed amount, the call returns and the
fresh value afterwards is `(v + d) mod 2 ^ 64`, which is `v + d` itself
whenever `0 ≤ v + d < 2 ^ 64`. -/
theorem UpdateStake_adds_signed_amount (acc : AccNumber) (d : Int) (s : IndexedKeeper)
    (hload : s.maps ≠ none) :
    ∃ s2, UpdateStake acc d s = some s2 ∧
      (StakeMap.get s2.userNewTotalStake acc : Int)
        = ((StakeMap.get s.userNewTotalStake acc : Int) + d) % 2 ^ 64 ∧
      (0 ≤ (StakeMap.get s.userNewTotalStake acc : Int) + d →
        (StakeMap.get s.userNewTotalStake acc : Int) + d < 2 ^ 64 →
        (StakeMap.get s2.userNewTotalStake acc : Int)
          = (StakeMap.get s.userNewTotalStake acc : Int) + d) := by
  obtain ⟨maps, accs⟩ := s
  cases maps with
  | none => exact absurd rfl hload
  | some m =>
    have h : ((StakeMap.get (StakeMap.set m.userNewTotalStake acc
        (addUint64 (StakeMap.get m.userNewTotalStake acc) (uint64 d))) acc : Nat) : Int)
        = ((StakeMap.get m.userNewTotalStake acc : Int) + d) % 2 ^ 64 := by
      rw [StakeMap.get_set_self]
      exact addUint64_uint64 _ d
    refine ⟨_, UpdateStake_allocated acc d m accs, h, fun h0 h1 => ?_⟩
    have h2 := Int.emod_eq_of_lt h0 h1
    exact h.trans h2

/-- Witness for the amended C5: a negative amount on the fresh value 5 of
account 1 of the sample state. -/
theorem UpdateStake_adds_signed_amount_witness :
    ∃ s2, UpdateStake 1 (-3) sampleState = some s2 ∧
      (StakeMap.get s2.userNewTotalStake 1 : Int) = 2 := by
  obtain ⟨s2, h1, _, h3⟩ := UpdateStake_adds_signed_amount 1 (-3) sampleState (by decide)
  exact ⟨s2, h1, h3 (by decide) (by decide)⟩

/-- Claim C6. The hook appends to the ChangeSet exactly the non-nil addresses
among `from` and `to`, `from` first, after the entries already there, and
leaves both stake maps as they are, nil or allocated with the same entries;
being a total function it cannot fail. -/
theorem hook_appends_present_addresses (index : IndexedKeeper) :
    (∀ a b, (hook (some a) (some b) index).accsToUpdate = index.accsToUpdate ++ [a, b]) ∧
    (∀ a, (hook (some a) none index).accsToUpdate = index.accsToUpdate ++ [a]) ∧
    (∀ b, (hook none (some b) index).accsToUpdate = index.accsToUpdate ++ [b]) ∧
    hook none none index = index ∧
    (∀ f t, (hook f t index).accsToUpdate = index.accsToUpdate ++ (f.toList ++ t.toList)) ∧
    (∀ f t, (hook f t index).userTotalStake = index.userTotalStake ∧
      (hook f t index).userNewTotalStake = index.userNewTotalStake) ∧
    (∀ f t, (hook f t index).maps = index.maps) := by
  refine ⟨fun a b => ?_, fun a => rfl, fun b => rfl, rfl, fun f t => ?_, fun f t => ?_,
    fun f t => hook_maps f t index⟩
  · simp [hook]
  · cases f <;> cases t <;> simp [hook]
  · cases f <;> cases t <;> exact ⟨rfl, rfl⟩

/-- Counterexample to C7 as stated. On the keeper `NewIndexedKeeper` returns,
with the registered address `[1]` recorded by the hook, `EndBlocker` faults on
the write into the nil fresh map, so it does not return and the ChangeSet is
not reset. -/
theorem EndBlocker_clears_change_set_counterexample :
    sampleBank.accountKeeper.GetAccount 0 [1] ≠ none ∧
    (hook (some [1]) none NewIndexedKeeper).accsToUpdate = [[1]] ∧
    EndBlocker sampleBank 0 (hook (some [1]) none NewIndexedKeeper) = none := by
  decide

/-- Claim C7, amended. When `Load` has allocated the maps or nothing is
recorded, and every recorded address has a registered account under the flush
context, `EndBlocker` returns with an empty ChangeSet, and a further
`EndBlocker` run right after it, under any context, returns the very same
state. -/
theorem EndBlocker_clears_change_set (k : Keeper) (ctx : Context) (s : IndexedKeeper)
    (hload : s.maps ≠ none ∨ s.accsToUpdate = [])
    (hreg : ∀ a ∈ s.accsToUpdate, k.accountKeeper.GetAccount ctx a ≠ none) :
    ∃ s2, EndBlocker k ctx s = some s2 ∧ s2.accsToUpdate = [] ∧
      ∀ ctx2, EndBlocker k ctx2 s2 = some s2 := by
  rcases hload with hload | hnil
  · obtain ⟨maps, accs⟩ := s
    cases maps with
    | none => exact absurd rfl hload
    | some m =>
      obtain ⟨f, hf⟩ := flushAllocated_isSome k ctx accs m.userNewTotalStake
        (registered_of_ne_none k ctx _ hreg)
      refine ⟨{ maps := some { m with userNewTotalStake := f }, accsToUpdate := [] }, ?_, rfl,
        fun ctx2 => rfl⟩
      rw [EndBlocker_allocated, hf]
      rfl
  · exact ⟨s, EndBlocker_of_nothing_recorded k ctx s hnil, hnil,
      fun ctx2 => EndBlocker_of_nothing_recorded k ctx2 s hnil⟩

/-- Witness for the amended C7 on the sample state, whose maps are allocated
and whose only recorded address `[1]` is registered. -/
theorem EndBlocker_clears_change_set_witness :
    ∃ s2, EndBlocker sampleBank 0 sampleState = some s2 ∧ s2.accsToUpdate = [] ∧
      ∀ ctx2, EndBlocker sampleBank ctx2 s2 = some s2 :=
  EndBlocker_clears_change_set sampleBank 0 sampleState (Or.inl (by decide)) (by decide)

/-! ## Claims on the query handlers -/

/-- Claim C8. On a present request `Rank` returns the error `ErrCidNotFound`,
and so no response at all, when the registry does not resolve the content
identifier; when the identifier resolves to number `n` it returns the rank
value the index holds for `n`. -/
theorem Rank_not_found_or_index_value (bk : StateKeeper) (ctx : Context)
    (r : QueryRankRequest) :
    ((bk.graphKeeper.GetCidNumber ctx r.Cid).2 = false →
      Rank bk ctx (some r) = Reply.error ErrKind.ErrCidNotFound r.Cid ∧
      ∀ resp, Rank bk ctx (some r) ≠ Reply.ok resp) ∧
    (∀ n, bk.graphKeeper.GetCidNumber ctx r.Cid = (n, true) →
      Rank bk ctx (some r) = Reply.ok { Rank := bk.index.GetRankValue n }) := by
  constructor
  · intro h
    have hr : Rank bk ctx (some r) = Reply.error ErrKind.ErrCidNotFound r.Cid := by
      rcases hc : bk.graphKeeper.GetCidNumber ctx r.Cid with ⟨n, b⟩
      rw [hc] at h
      cases b
      · simp only [Rank, hc]
      · cases h
    exact ⟨hr, fun resp he => by rw [hr] at he; cases he⟩
  · intro n h
    simp only [Rank, h]

/-- Witness for C8: the unknown identifier "QxUnknown" and the identifier "Qx2"
of content 2 with rank 22. -/
theorem Rank_not_found_or_index_value_witness :
    Rank sampleQuery 0 (some { Cid := "QxUnknown" })
      = Reply.error ErrKind.ErrCidNotFound "QxUnknown" ∧
    Rank sampleQuery 0 (some { Cid := "Qx2" }) = Reply.ok { Rank := 22 } :=
  ⟨((Rank_not_found_or_index_value sampleQuery 0 { Cid := "QxUnknown" }).1 (by decide)).1,
   (Rank_not_found_or_index_value sampleQuery 0 { Cid := "Qx2" }).2 2 (by decide)⟩

theorem IsLinkExist_ok (bk : StateKeeper) (ctx : Context) (r : QueryIsLinkExistRequest)
    (addr : AccAddress) (account : Account)
    (hp : bk.AccAddressFromBech32 r.Address = Except.ok addr)
    (hf : (bk.graphKeeper.GetCidNumber ctx r.From).2 = true)
    (ht : (bk.graphKeeper.GetCidNumber ctx r.To).2 = true)
    (ha : bk.accountKeeper.GetAccount ctx addr = some account) :
    IsLinkExist bk ctx (some r) = Reply.ok
      { Exist := bk.graphIndexedKeeper.IsLinkExist
          { fromCid := (bk.graphKeeper.GetCidNumber ctx r.From).1,
            toCid := (bk.graphKeeper.GetCidNumber ctx r.To).1,
            account := account.GetAccountNumber } } := by
  rcases hcf : bk.graphKeeper.GetCidNumber ctx r.From with ⟨nf, bf⟩
  rcases hct : bk.graphKeeper.GetCidNumber ctx r.To with ⟨nt, bt⟩
  rw [hcf] at hf
  rw [hct] at ht
  cases hf
  cases ht
  simp only [IsLinkExist, hp, hcf, hct, ha]

theorem IsLinkExist_invalid_address (bk : StateKeeper) (ctx : Context)
    (r : QueryIsLinkExistRequest) (e : String)
    (hp : bk.AccAddressFromBech32 r.Address = Except.error e) :
    IsLinkExist bk ctx (some r) = Reply.error ErrKind.ErrInvalidAddress e := by
  simp only [IsLinkExist, hp]

theorem IsLinkExist_from_not_found (bk : StateKeeper) (ctx : Context)
    (r : QueryIsLinkExistRequest) (addr : AccAddress)
    (hp : bk.AccAddressFromBech32 r.Address = Except.ok addr)
    (hf : (bk.graphKeeper.GetCidNumber ctx r.From).2 = false) :
    IsLinkExist bk ctx (some r) = Reply.error ErrKind.ErrCidNotFound r.From := by
  rcases hcf : bk.graphKeeper.GetCidNumber ctx r.From with ⟨nf, bf⟩
  rw [hcf] at hf
  cases hf
  simp only [IsLinkExist, hp, hcf]

theorem IsLinkExist_to_not_found (bk : StateKeeper) (ctx : Context)
    (r : QueryIsLinkExistRequest) (addr : AccAddress)
    (hp : bk.AccAddressFromBech32 r.Address = Except.ok addr)
    (hf : (bk.graphKeeper.GetCidNumber ctx r.From).2 = true)
    (ht : (bk.graphKeeper.GetCidNumber ctx r.To).2 = false) :
    IsLinkExist bk ctx (some r) = Reply.error ErrKind.ErrCidNotFound r.To := by
  rcases hcf : bk.graphKeeper.GetCidNumber ctx r.From with ⟨nf, bf⟩
  rcases hct : bk.graphKeeper.GetCidNumber ctx r.To with ⟨nt, bt⟩
  rw [hcf] at hf
  rw [hct] at ht
  cases hf
  cases ht
  simp only [IsLinkExist, hp, hcf, hct]

theorem IsLinkExist_invalid_account (bk : StateKeeper) (ctx : Context)
    (r : QueryIsLinkExistRequest) (addr : AccAddress)
    (hp : bk.AccAddressFromBech32 r.Address = Except.ok addr)
    (hf : (bk.graphKeeper.GetCidNumber ctx r.From).2 = true)
    (ht : (bk.graphKeeper.GetCidNumber ctx r.To).2 = true)
    (ha : bk.accountKeeper.GetAccount ctx addr = none) :
    IsLinkExist bk ctx (some r)
      = Reply.error ErrKind.ErrInvalidAccount (bk.addrString addr) := by
  rcases hcf : bk.graphKeeper.GetCidNumber ctx r.From with ⟨nf, bf⟩
  rcases hct : bk.graphKeeper.GetCidNumber ctx r.To with ⟨nt, bt⟩
  rw [hcf] at hf
  rw [hct] at ht
  cases hf
  cases ht
  simp only [IsLinkExist, hp, hcf, hct, ha]

theorem IsAnyLinkExist_ok (bk : StateKeeper) (ctx : Context) (r : QueryIsAnyLinkExistRequest)
    (hf : (bk.graphKeeper.GetCidNumber ctx r.From).2 = true)
    (ht : (bk.graphKeeper.GetCidNumber ctx r.To).2 = true) :
    IsAnyLinkExist bk ctx (some r) = Reply.ok
      { Exist := bk.graphIndexedKeeper.IsAnyLinkExist
          (bk.graphKeeper.GetCidNumber ctx r.From).1 (bk.graphKeeper.GetCidNumber ctx r.To).1 } := by
  rcases hcf : bk.graphKeeper.GetCidNumber ctx r.From with ⟨nf, bf⟩
  rcases hct : bk.graphKeeper.GetCidNumber ctx r.To with ⟨nt, bt⟩
  rw [hcf] at hf
  rw [hct] at ht
  cases hf
  cases ht
  simp only [IsAnyLinkExist, hcf, hct]

theorem IsAnyLinkExist_not_found (bk : StateKeeper) (ctx : Context)
    (r : QueryIsAnyLinkExistRequest)
    (h : (bk.graphKeeper.GetCidNumber ctx r.From).2 = false ∨
      (bk.graphKeeper.GetCidNumber ctx r.To).2 = false) :
    ∃ d, IsAnyLinkExist bk ctx (some r) = Reply.error ErrKind.ErrCidNotFound d := by
  rcases hcf : bk.graphKeeper.GetCidNumber ctx r.From with ⟨nf, bf⟩
  rcases hct : bk.graphKeeper.GetCidNumber ctx r.To with ⟨nt, bt⟩
  rw [hcf, hct] at h
  cases bf
  · exact ⟨r.From, by simp only [IsAnyLinkExist, hcf]⟩
  · cases bt
    · exact ⟨r.To, by simp only [IsAnyLinkExist, hcf, hct]⟩
    · simp at h

/-- Claim C9. `IsLinkExist` succeeds exactly when the request is present, the
address parses, both identifiers resolve and the address has a registered
account; its boolean is then the answer of the link index for the triple
(number of `From`, number of `To`, account number of the address), in that
order. `IsAnyLinkExist` succeeds exactly when the request is present and both
identifiers resolve, and then returns the answer of the index for the pair
(number of `From`, number of `To`). -/
theorem IsLinkExist_success_iff_and_value (bk : StateKeeper) (ctx : Context)
    (req : Option QueryIsLinkExistRequest) (anyReq : Option QueryIsAnyLinkExistRequest) :
    ((∃ resp, IsLinkExist bk ctx req = Reply.ok resp) ↔
      ∃ r addr account, req = some r ∧
        bk.AccAddressFromBech32 r.Address = Except.ok addr ∧
        (bk.graphKeeper.GetCidNumber ctx r.From).2 = true ∧
        (bk.graphKeeper.GetCidNumber ctx r.To).2 = true ∧
        bk.accountKeeper.GetAccount ctx addr = some account) ∧
    (∀ r addr account, req = some r →
      bk.AccAddressFromBech32 r.Address = Except.ok addr →
      (bk.graphKeeper.GetCidNumber ctx r.From).2 = true →
      (bk.graphKeeper.GetCidNumber ctx r.To).2 = true →
      bk.accountKeeper.GetAccount ctx addr = some account →
      IsLinkExist bk ctx req = Reply.ok
        { Exist := bk.graphIndexedKeeper.IsLinkExist
            { fromCid := (bk.graphKeeper.GetCidNumber ctx r.From).1,
              toCid := (bk.graphKeeper.GetCidNumber ctx r.To).1,
              account := account.GetAccountNumber } }) ∧
    ((∃ resp, IsAnyLinkExist bk ctx anyReq = Reply.ok resp) ↔
      ∃ r, anyReq = some r ∧
        (bk.graphKeeper.GetCidNumber ctx r.From).2 = true ∧
        (bk.graphKeeper.GetCidNumber ctx r.To).2 = true) ∧
    (∀ r, anyReq = some r →
      (bk.graphKeeper.GetCidNumber ctx r.From).2 = true →
      (bk.graphKeeper.GetCidNumber ctx r.To).2 = true →
      IsAnyLinkExist bk ctx anyReq = Reply.ok
        { Exist := bk.graphIndexedKeeper.IsAnyLinkExist
            (bk.graphKeeper.GetCidNumber ctx r.From).1
            (bk.graphKeeper.GetCidNumber ctx r.To).1 }) := by
  refine ⟨⟨?_, ?_⟩, ?_, ⟨?_, ?_⟩, ?_⟩
  · rintro ⟨resp, h⟩
    cases req with
    | none => simp [IsLinkExist] at h
    | some r =>
      cases hp : bk.AccAddressFromBech32 r.Address with
      | error e =>
        rw [IsLinkExist_invalid_address bk ctx r e hp] at h
        cases h
      | ok addr =>
        cases hf : (bk.graphKeeper.GetCidNumber ctx r.From).2 with
        | false =>
          rw [IsLinkExist_from_not_found bk ctx r addr hp hf] at h
          cases h
        | true =>
          cases ht : (bk.graphKeeper.GetCidNumber ctx r.To).2 with
          | false =>
            rw [IsLinkExist_to_not_found bk ctx r addr hp hf ht] at h
            cases h
          | true =>
            cases ha : bk.accountKeeper.GetAccount ctx addr with
            | none =>
              rw [IsLinkExist_invalid_account bk ctx r addr hp hf ht ha] at h
              cases h
            | some account => exact ⟨r, addr, account, rfl, hp, hf, ht, ha⟩
  · rintro ⟨r, addr, account, rfl, hp, hf, ht, ha⟩
    exact ⟨_, IsLinkExist_ok bk ctx r addr account hp hf ht ha⟩
  · rintro r addr account rfl hp hf ht ha
    exact IsLinkExist_ok bk ctx r addr account hp hf ht ha
  · rintro ⟨resp, h⟩
    cases anyReq with
    | none => simp [IsAnyLinkExist] at h
    | some r =>
      cases hf : (bk.graphKeeper.GetCidNumber ctx r.From).2 with
      | false =>
        obtain ⟨d, hd⟩ := IsAnyLinkExist_not_found bk ctx r (Or.inl hf)
        rw [hd] at h
        cases h
      | true =>
        cases ht : (bk.graphKeeper.GetCidNumber ctx r.To).2 with
        | false =>
          obtain ⟨d, hd⟩ := IsAnyLinkExist_not_found bk ctx r (Or.inr ht)
          rw [hd] at h
          cases h
        | true => exact ⟨r, rfl, hf, ht⟩
  · rintro ⟨r, rfl, hf, ht⟩
    exact ⟨_, IsAnyLinkExist_ok bk ctx r hf ht⟩
  · rintro r rfl hf ht
    exact IsAnyLinkExist_ok bk ctx r hf ht

/-- Witness for C9 in the example scenario: the link (1, 2) of account 7 is
found for ("Qx1", "Qx2", "addr1") and not for the swapped pair, and
`IsAnyLinkExist` finds the pair. -/
theorem IsLinkExist_success_iff_and_value_witness :
    IsLinkExist sampleQuery 0 (some { From := "Qx1", To := "Qx2", Address := "addr1" })
      = Reply.ok { Exist := true } ∧
    IsLinkExist sampleQuery 0 (some { From := "Qx2", To := "Qx1", Address := "addr1" })
      = Reply.ok { Exist := false } ∧
    IsAnyLinkExist sampleQuery 0 (some { From := "Qx1", To := "Qx2" })
      = Reply.ok { Exist := true } :=
  have h := IsLinkExist_success_iff_and_value sampleQuery 0
    (some { From := "Qx1", To := "Qx2", Address := "addr1" })
    (some { From := "Qx1", To := "Qx2" })
  have h2 := IsLinkExist_success_iff_and_value sampleQuery 0
    (some { From := "Qx2", To := "Qx1", Address := "addr1" }) none
  ⟨h.2.1 { From := "Qx1", To := "Qx2", Address := "addr1" } [1]
      { GetAddress := [1], GetAccountNumber := 7 } rfl rfl (by decide) (by decide)
      (by decide),
   h2.2.1 { From := "Qx2", To := "Qx1", Address := "addr1" } [1]
      { GetAddress := [1], GetAccountNumber := 7 } rfl rfl (by decide) (by decide)
      (by decide),
   h.2.2.2 { From := "Qx1", To := "Qx2" } rfl (by decide) (by decide)⟩

theorem IsLinkExist_reply_cases (bk : StateKeeper) (ctx : Context)
    (r : QueryIsLinkExistRequest) :
    (∃ e, bk.AccAddressFromBech32 r.Address = Except.error e ∧
      IsLinkExist bk ctx (some r) = Reply.error ErrKind.ErrInvalidAddress e) ∨
    (∃ addr, bk.AccAddressFromBech32 r.Address = Except.ok addr ∧
      ((bk.graphKeeper.GetCidNumber ctx r.From).2 = false ∨
        (bk.graphKeeper.GetCidNumber ctx r.To).2 = false) ∧
      ∃ d, IsLinkExist bk ctx (some r) = Reply.error ErrKind.ErrCidNotFound d) ∨
    (∃ addr, bk.AccAddressFromBech32 r.Address = Except.ok addr ∧
      bk.accountKeeper.GetAccount ctx addr = none ∧
      IsLinkExist bk ctx (some r)
        = Reply.error ErrKind.ErrInvalidAccount (bk.addrString addr)) ∨
    (∃ resp, IsLinkExist bk ctx (some r) = Reply.ok resp) := by
  cases hp : bk.AccAddressFromBech32 r.Address with
  | error e => exact Or.inl ⟨e, rfl, IsLinkExist_invalid_address bk ctx r e hp⟩
  | ok addr =>
    cases hf : (bk.graphKeeper.GetCidNumber ctx r.From).2 with
    | false =>
      exact Or.inr (Or.inl ⟨addr, rfl, Or.inl rfl,
        r.From, IsLinkExist_from_not_found bk ctx r addr hp hf⟩)
    | true =>
      cases ht : (bk.graphKeeper.GetCidNumber ctx r.To).2 with
      | false =>
        exact Or.inr (Or.inl ⟨addr, rfl, Or.inr rfl,
          r.To, IsLinkExist_to_not_found bk ctx r addr hp hf ht⟩)
      | true =>
        cases ha : bk.accountKeeper.GetAccount ctx addr with
        | none =>
          exact Or.inr (Or.inr (Or.inl ⟨addr, rfl, ha,
            IsLinkExist_invalid_account bk ctx r addr hp hf ht ha⟩))
        | some account =>
          exact Or.inr (Or.inr (Or.inr ⟨_, IsLinkExist_ok bk ctx r addr account hp hf ht ha⟩))

/-- Claim C10. For every present request `IsLinkExist` classifies its failures
as listed. A request whose address cannot be parsed fails with
`ErrInvalidAddress`; one whose address parses and whose identifiers resolve
but whose address has no registered account fails with `ErrInvalidAccount`;
one whose address parses and one of whose identifiers is unknown fails with
`ErrCidNotFound`. Conversely a failure with `ErrInvalidAddress` has an
unparsable address, one with `ErrInvalidAccount` a parsing address without a
registered account, one with `ErrCidNotFound` an unknown identifier, and a
present request never fails in another way. -/
theorem IsLinkExist_failure_classification (bk : StateKeeper) (ctx : Context)
    (r : QueryIsLinkExistRequest) :
    (∀ e, bk.AccAddressFromBech32 r.Address = Except.error e →
      IsLinkExist bk ctx (some r) = Reply.error ErrKind.ErrInvalidAddress e) ∧
    (∀ addr, bk.AccAddressFromBech32 r.Address = Except.ok addr →
      (bk.graphKeeper.GetCidNumber ctx r.From).2 = true →
      (bk.graphKeeper.GetCidNumber ctx r.To).2 = true →
      bk.accountKeeper.GetAccount ctx addr = none →
      IsLinkExist bk ctx (some r)
        = Reply.error ErrKind.ErrInvalidAccount (bk.addrString addr)) ∧
    (∀ addr, bk.AccAddressFromBech32 r.Address = Except.ok addr →
      ((bk.graphKeeper.GetCidNumber ctx r.From).2 = false ∨
        (bk.graphKeeper.GetCidNumber ctx r.To).2 = false) →
      ∃ d, IsLinkExist bk ctx (some r) = Reply.error ErrKind.ErrCidNotFound d) ∧
    (∀ d, IsLinkExist bk ctx (some r) = Reply.error ErrKind.ErrInvalidAddress d →
      ∃ e, bk.AccAddressFromBech32 r.Address = Except.error e) ∧
    (∀ d, IsLinkExist bk ctx (some r) = Reply.error ErrKind.ErrInvalidAccount d →
      ∃ addr, bk.AccAddressFromBech32 r.Address = Except.ok addr ∧
        bk.accountKeeper.GetAccount ctx addr = none) ∧
    (∀ d, IsLinkExist bk ctx (some r) = Reply.error ErrKind.ErrCidNotFound d →
      (bk.graphKeeper.GetCidNumber ctx r.From).2 = false ∨
        (bk.graphKeeper.GetCidNumber ctx r.To).2 = false) ∧
    (∀ d, IsLinkExist bk ctx (some r) ≠ Reply.error ErrKind.InvalidArgument d) ∧
    IsLinkExist bk ctx (some r) ≠ Reply.fault := by
  refine ⟨fun e hp => IsLinkExist_invalid_address bk ctx r e hp,
    fun addr hp hf ht ha => IsLinkExist_invalid_account bk ctx r addr hp hf ht ha,
    ?_, ?_, ?_, ?_, ?_, ?_⟩
  · intro addr hp h
    cases hf : (bk.graphKeeper.GetCidNumber ctx r.From).2 with
    | false => exact ⟨r.From, IsLinkExist_from_not_found bk ctx r addr hp hf⟩
    | true =>
      rcases h with h | h
      · rw [hf] at h
        cases h
      · exact ⟨r.To, IsLinkExist_to_not_found bk ctx r addr hp hf h⟩
  · intro d h
    rcases IsLinkExist_reply_cases bk ctx r with
      ⟨e, hp, _⟩ | ⟨_, _, _, d2, h2⟩ | ⟨_, _, _, h2⟩ | ⟨resp, h2⟩
    · exact ⟨e, hp⟩
    · rw [h2] at h
      injection h with hk
      cases hk
    · rw [h2] at h
      injection h with hk
      cases hk
    · rw [h2] at h
      cases h
  · intro d h
    rcases IsLinkExist_reply_cases bk ctx r with
      ⟨e, _, h2⟩ | ⟨_, _, _, d2, h2⟩ | ⟨addr, hp, ha, _⟩ | ⟨resp, h2⟩
    · rw [h2] at h
      injection h with hk
      cases hk
    · rw [h2] at h
      injection h with hk
      cases hk
    · exact ⟨addr, hp, ha⟩
    · rw [h2] at h
      cases h
  · intro d h
    rcases IsLinkExist_reply_cases bk ctx r with
      ⟨e, _, h2⟩ | ⟨_, _, hu, _⟩ | ⟨_, _, _, h2⟩ | ⟨resp, h2⟩
    · rw [h2] at h
      injection h with hk
      cases hk
    · exact hu
    · rw [h2] at h
      injection h with hk
      cases hk
    · rw [h2] at h
      cases h
  · intro d h
    rcases IsLinkExist_reply_cases bk ctx r with
      ⟨e, _, h2⟩ | ⟨_, _, _, d2, h2⟩ | ⟨_, _, _, h2⟩ | ⟨resp, h2⟩
    · rw [h2] at h
      injection h with hk
      cases hk
    · rw [h2] at h
      injection h with hk
      cases hk
    · rw [h2] at h
      injection h with hk
      cases hk
    · rw [h2] at h
      cases h
  · intro h
    rcases IsLinkExist_reply_cases bk ctx r with
      ⟨e, _, h2⟩ | ⟨_, _, _, d2, h2⟩ | ⟨_, _, _, h2⟩ | ⟨resp, h2⟩
    · rw [h2] at h
      cases h
    · rw [h2] at h
      cases h
    · rw [h2] at h
      cases h
    · rw [h2] at h
      cases h

/-- Witness for C10: one request for each of the three failures. -/
theorem IsLinkExist_failure_classification_witness :
    IsLinkExist sampleQuery 0 (some { From := "Qx1", To := "Qx2", Address := "zzz" })
      = Reply.error ErrKind.ErrInvalidAddress "decoding bech32 failed" ∧
    IsLinkExist sampleQuery 0 (some { From := "Qx1", To := "Qx2", Address := "addr9" })
      = Reply.error ErrKind.ErrInvalidAccount "addr9" ∧
    (∃ d, IsLinkExist sampleQuery 0
        (some { From := "Qx1", To := "QxUnknown", Address := "addr1" })
      = Reply.error ErrKind.ErrCidNotFound d) :=
  ⟨(IsLinkExist_failure_classification sampleQuery 0
      { From := "Qx1", To := "Qx2", Address := "zzz" }).1 _ rfl,
   (IsLinkExist_failure_classification sampleQuery 0
      { From := "Qx1", To := "Qx2", Address := "addr9" }).2.1 [9] rfl (by decide)
      (by decide) (by decide),
   (IsLinkExist_failure_classification sampleQuery 0
      { From := "Qx1", To := "QxUnknown", Address := "addr1" }).2.2.1 [1] rfl
      (Or.inr (by decide))⟩

/-! ## Requests, paging and results of the list handlers -/

theorem toRankedCids_eq_map (bk : StateKeeper) (ctx : Context) (l : List RankedCidNumber) :
    toRankedCids bk ctx l
      = l.map (fun c => { Cid := bk.graphKeeper.GetCid ctx c.GetNumber, Rank := c.GetRank }) := by
  induction l with
  | nil => rfl
  | cons c rest ih => simp only [toRankedCids, List.map_cons, ih]

theorem Search_eq_replyOfIndex (bk : StateKeeper) (ctx : Context) (r : QuerySearchRequest)
    (n : CidNumber) (h : bk.graphKeeper.GetCidNumber ctx r.Cid = (n, true)) :
    Search bk ctx (some r)
      = replyOfIndex bk ctx (bk.index.Search n (searchPaging r).1 (searchPaging r).2) := by
  simp only [Search, h, searchPaging, replyOfIndex]

theorem Backlinks_eq_replyOfIndex (bk : StateKeeper) (ctx : Context) (r : QuerySearchRequest)
    (n : CidNumber) (h : bk.graphKeeper.GetCidNumber ctx r.Cid = (n, true)) :
    Backlinks bk ctx (some r)
      = replyOfIndex bk ctx (bk.index.Backlinks n (searchPaging r).1 (searchPaging r).2) := by
  simp only [Backlinks, h, searchPaging, replyOfIndex]

theorem Top_eq_replyOfIndex (bk : StateKeeper) (ctx : Context) (r : PageRequest) :
    Top bk ctx (some r) = replyOfIndex bk ctx (bk.index.Top r.Page r.PerPage) := by
  simp only [Top, assign, replyOfIndex]

theorem Search_not_found (bk : StateKeeper) (ctx : Context) (r : QuerySearchRequest)
    (h : (bk.graphKeeper.GetCidNumber ctx r.Cid).2 = false) :
    Search bk ctx (some r) = Reply.error ErrKind.ErrCidNotFound "" := by
  rcases hc : bk.graphKeeper.GetCidNumber ctx r.Cid with ⟨n, b⟩
  rw [hc] at h
  cases h
  simp only [Search, hc]

theorem Backlinks_not_found (bk : StateKeeper) (ctx : Context) (r : QuerySearchRequest)
    (h : (bk.graphKeeper.GetCidNumber ctx r.Cid).2 = false) :
    Backlinks bk ctx (some r) = Reply.error ErrKind.ErrCidNotFound r.Cid := by
  rcases hc : bk.graphKeeper.GetCidNumber ctx r.Cid with ⟨n, b⟩
  rw [hc] at h
  cases h
  simp only [Backlinks, hc]

theorem replyOfIndex_ok (bk : StateKeeper) (ctx : Context)
    (res : Except String (List RankedCidNumber × Nat)) (resp : QuerySearchResponse)
    (h : replyOfIndex bk ctx res = Reply.ok resp) :
    ∃ l total, res = Except.ok (l, total) ∧
      resp.Result = l.map (fun c =>
        { Cid := bk.graphKeeper.GetCid ctx c.GetNumber, Rank := c.GetRank }) ∧
      resp.Pagination.Total = total := by
  cases res with
  | error e => simp [replyOfIndex] at h
  | ok v =>
    obtain ⟨l, total⟩ := v
    simp only [replyOfIndex, Reply.ok.injEq] at h
    subst h
    exact ⟨l, total, rfl, toRankedCids_eq_map bk ctx l, rfl⟩

/-! ## Claims on nil requests and on paging -/

/-- Claim C11, evaluated at the nil request. `Search`, `Backlinks`, `Top`,
`IsLinkExist`, `IsAnyLinkExist`, `Entropy`, `Luminosity` and `Karma` answer a
nil request with the error `InvalidArgument`; `Rank` has no such test, reads
`req.Cid` and faults. -/
theorem nil_request_replies (bk : StateKeeper) (ctx : Context) :
    Rank bk ctx none = Reply.fault ∧
    Search bk ctx none = Reply.error ErrKind.InvalidArgument "empty request" ∧
    Backlinks bk ctx none = Reply.error ErrKind.InvalidArgument "empty request" ∧
    Top bk ctx none = Reply.error ErrKind.InvalidArgument "empty request" ∧
    IsLinkExist bk ctx none = Reply.error ErrKind.InvalidArgument "empty request" ∧
    IsAnyLinkExist bk ctx none = Reply.error ErrKind.InvalidArgument "empty request" ∧
    Entropy bk ctx none = Reply.error ErrKind.InvalidArgument "empty request" ∧
    Luminosity bk ctx none = Reply.error ErrKind.InvalidArgument "empty request" ∧
    Karma bk ctx none = Reply.error ErrKind.InvalidArgument "empty request" :=
  ⟨rfl, rfl, rfl, rfl, rfl, rfl, rfl, rfl, rfl⟩

/-- Claim C12, evaluated on the code. For every present request `Top` queries
the index with the fields `Page` and `PerPage` of the request, so the declared
`(0, 100)` is never used: a request with both fields left at zero queries the
index with page 0 and perPage 0, and a nil request is answered with
`InvalidArgument`. -/
theorem Top_queries_request_fields (bk : StateKeeper) (ctx : Context) (r : PageRequest) :
    Top bk ctx (some r) = replyOfIndex bk ctx (bk.index.Top r.Page r.PerPage) ∧
    Top echoQuery 0 (some { Page := 0, PerPage := 0 })
      = Reply.ok { Result := [], Pagination := { Total := 0 } } ∧
    replyOfIndex echoQuery 0 (echoQuery.index.Top 0 100)
      = Reply.ok { Result := [{ Cid := "Qx2", Rank := 22 }, { Cid := "Qx1", Rank := 11 }],
                   Pagination := { Total := 100 } } ∧
    Top bk ctx none = Reply.error ErrKind.InvalidArgument "empty request" :=
  ⟨Top_eq_replyOfIndex bk ctx r, by decide, by decide, rfl⟩

/-- Claim C13. For every present request whose identifier resolves, `Search`
and `Backlinks` query the index with page 0 and perPage 10 when the request
has no pagination, and with the page and perPage of the request, unchanged,
when it has one. -/
theorem Search_Backlinks_paging (bk : StateKeeper) (ctx : Context) (r : QuerySearchRequest)
    (n : CidNumber) (h : bk.graphKeeper.GetCidNumber ctx r.Cid = (n, true)) :
    (r.Pagination = none →
      Search bk ctx (some r) = replyOfIndex bk ctx (bk.index.Search n 0 10) ∧
      Backlinks bk ctx (some r) = replyOfIndex bk ctx (bk.index.Backlinks n 0 10)) ∧
    (∀ p, r.Pagination = some p →
      Search bk ctx (some r) = replyOfIndex bk ctx (bk.index.Search n p.Page p.PerPage) ∧
      Backlinks bk ctx (some r)
        = replyOfIndex bk ctx (bk.index.Backlinks n p.Page p.PerPage)) := by
  constructor
  · intro hp
    rw [Search_eq_replyOfIndex bk ctx r n h, Backlinks_eq_replyOfIndex bk ctx r n h]
    simp only [searchPaging, hp, and_self]
  · intro p hp
    rw [Search_eq_replyOfIndex bk ctx r n h, Backlinks_eq_replyOfIndex bk ctx r n h]
    simp only [searchPaging, hp, and_self]

/-- Witness for C13 on the index that shows its arguments: without pagination
the total reads page 0 and perPage 10, with pagination (3, 1) it reads page 3
and perPage 1. -/
theorem Search_Backlinks_paging_witness :
    Search echoQuery 0 (some { Cid := "Qx1", Pagination := none })
      = Reply.ok { Result := [{ Cid := "Qx2", Rank := 22 }, { Cid := "Qx1", Rank := 11 }],
                   Pagination := { Total := 10 } } ∧
    Backlinks echoQuery 0 (some { Cid := "Qx1", Pagination := some { Page := 3, PerPage := 1 } })
      = Reply.ok { Result := [{ Cid := "Qx2", Rank := 22 }],
                   Pagination := { Total := 3001 } } :=
  ⟨((Search_Backlinks_paging echoQuery 0 { Cid := "Qx1", Pagination := none } 1
      (by decide)).1 rfl).1,
   ((Search_Backlinks_paging echoQuery 0
      { Cid := "Qx1", Pagination := some { Page := 3, PerPage := 1 } } 1
      (by decide)).2 { Page := 3, PerPage := 1 } rfl).2⟩

theorem replyOfIndex_of_ok (bk : StateKeeper) (ctx : Context) (l : List RankedCidNumber)
    (total : Nat) :
    replyOfIndex bk ctx (Except.ok (l, total))
      = Reply.ok { Result := l.map (fun c =>
                     { Cid := bk.graphKeeper.GetCid ctx c.GetNumber, Rank := c.GetRank }),
                   Pagination := { Total := total } } := by
  simp only [replyOfIndex, toRankedCids_eq_map]

/-- Claim C14. Whenever the index answers the query of a present `Search`,
`Backlinks` (identifier resolving) or `Top` request with a list and a total,
the handler succeeds and returns exactly these entries, in the same order and
number, each with its rank unchanged and its number mapped back to its content
identifier, and reports the total of the index unchanged; so the response has
at most perPage entries whenever the index returned at most perPage entries.
Conversely every successful reply of the three handlers is of this form. -/
theorem list_handlers_pass_index_page (bk : StateKeeper) (ctx : Context) :
    (∀ r n l total, bk.graphKeeper.GetCidNumber ctx r.Cid = (n, true) →
      bk.index.Search n (searchPaging r).1 (searchPaging r).2 = Except.ok (l, total) →
      Search bk ctx (some r) = Reply.ok
        { Result := l.map (fun c =>
            { Cid := bk.graphKeeper.GetCid ctx c.GetNumber, Rank := c.GetRank }),
          Pagination := { Total := total } } ∧
      (l.map (fun c => ({ Cid := bk.graphKeeper.GetCid ctx c.GetNumber,
                          Rank := c.GetRank } : RankedCid))).length = l.length ∧
      (l.length ≤ (searchPaging r).2 →
        (l.map (fun c => ({ Cid := bk.graphKeeper.GetCid ctx c.GetNumber,
                            Rank := c.GetRank } : RankedCid))).length ≤ (searchPaging r).2)) ∧
    (∀ r n l total, bk.graphKeeper.GetCidNumber ctx r.Cid = (n, true) →
      bk.index.Backlinks n (searchPaging r).1 (searchPaging r).2 = Except.ok (l, total) →
      Backlinks bk ctx (some r) = Reply.ok
        { Result := l.map (fun c =>
            { Cid := bk.graphKeeper.GetCid ctx c.GetNumber, Rank := c.GetRank }),
          Pagination := { Total := total } } ∧
      (l.map (fun c => ({ Cid := bk.graphKeeper.GetCid ctx c.GetNumber,
                          Rank := c.GetRank } : RankedCid))).length = l.length ∧
      (l.length ≤ (searchPaging r).2 →
        (l.map (fun c => ({ Cid := bk.graphKeeper.GetCid ctx c.GetNumber,
                            Rank := c.GetRank } : RankedCid))).length ≤ (searchPaging r).2)) ∧
    (∀ r l total, bk.index.Top r.Page r.PerPage = Except.ok (l, total) →
      Top bk ctx (some r) = Reply.ok
        { Result := l.map (fun c =>
            { Cid := bk.graphKeeper.GetCid ctx c.GetNumber, Rank := c.GetRank }),
          Pagination := { Total := total } } ∧
      (l.map (fun c => ({ Cid := bk.graphKeeper.GetCid ctx c.GetNumber,
                          Rank := c.GetRank } : RankedCid))).length = l.length ∧
      (l.length ≤ r.PerPage →
        (l.map (fun c => ({ Cid := bk.graphKeeper.GetCid ctx c.GetNumber,
                            Rank := c.GetRank } : RankedCid))).length ≤ r.PerPage)) ∧
    (∀ r resp, Search bk ctx (some r) = Reply.ok resp →
      ∃ l total,
        bk.index.Search (bk.graphKeeper.GetCidNumber ctx r.Cid).1
          (searchPaging r).1 (searchPaging r).2 = Except.ok (l, total) ∧
        resp.Result = l.map (fun c =>
          { Cid := bk.graphKeeper.GetCid ctx c.GetNumber, Rank := c.GetRank }) ∧
        resp.Result.length = l.length ∧
        resp.Pagination.Total = total ∧
        (l.length ≤ (searchPaging r).2 → resp.Result.length ≤ (searchPaging r).2)) ∧
    (∀ r resp, Backlinks bk ctx (some r) = Reply.ok resp →
      ∃ l total,
        bk.index.Backlinks (bk.graphKeeper.GetCidNumber ctx r.Cid).1
          (searchPaging r).1 (searchPaging r).2 = Except.ok (l, total) ∧
        resp.Result = l.map (fun c =>
          { Cid := bk.graphKeeper.GetCid ctx c.GetNumber, Rank := c.GetRank }) ∧
        resp.Result.length = l.length ∧
        resp.Pagination.Total = total ∧
        (l.length ≤ (searchPaging r).2 → resp.Result.length ≤ (searchPaging r).2)) ∧
    (∀ r resp, Top bk ctx (some r) = Reply.ok resp →
      ∃ l total,
        bk.index.Top r.Page r.PerPage = Except.ok (l, total) ∧
        resp.Result = l.map (fun c =>
          { Cid := bk.graphKeeper.GetCid ctx c.GetNumber, Rank := c.GetRank }) ∧
        resp.Result.length = l.length ∧
        resp.Pagination.Total = total ∧
        (l.length ≤ r.PerPage → resp.Result.length ≤ r.PerPage)) := by
  refine ⟨fun r n l total hc hi => ?_, fun r n l total hc hi => ?_, fun r l total hi => ?_,
    fun r resp h => ?_, fun r resp h => ?_, fun r resp h => ?_⟩
  · refine ⟨?_, List.length_map _ _, fun hle => ?_⟩
    · rw [Search_eq_replyOfIndex bk ctx r n hc, hi, replyOfIndex_of_ok]
    · rw [List.length_map]
      exact hle
  · refine ⟨?_, List.length_map _ _, fun hle => ?_⟩
    · rw [Backlinks_eq_replyOfIndex bk ctx r n hc, hi, replyOfIndex_of_ok]
    · rw [List.length_map]
      exact hle
  · refine ⟨?_, List.length_map _ _, fun hle => ?_⟩
    · rw [Top_eq_replyOfIndex bk ctx r, hi, replyOfIndex_of_ok]
    · rw [List.length_map]
      exact hle
  · cases hb : (bk.graphKeeper.GetCidNumber ctx r.Cid).2 with
    | false =>
      rw [Search_not_found bk ctx r hb] at h
      cases h
    | true =>
      have hc : bk.graphKeeper.GetCidNumber ctx r.Cid
          = ((bk.graphKeeper.GetCidNumber ctx r.Cid).1, true) := by
        rw [← hb]
      rw [Search_eq_replyOfIndex bk ctx r _ hc] at h
      obtain ⟨l, total, h1, h2, h3⟩ := replyOfIndex_ok bk ctx _ resp h
      have hlen : resp.Result.length = l.length := by rw [h2, List.length_map]
      exact ⟨l, total, h1, h2, hlen, h3, fun hle => hlen ▸ hle⟩
  · cases hb : (bk.graphKeeper.GetCidNumber ctx r.Cid).2 with
    | false =>
      rw [Backlinks_not_found bk ctx r hb] at h
      cases h
    | true =>
      have hc : bk.graphKeeper.GetCidNumber ctx r.Cid
          = ((bk.graphKeeper.GetCidNumber ctx r.Cid).1, true) := by
        rw [← hb]
      rw [Backlinks_eq_replyOfIndex bk ctx r _ hc] at h
      obtain ⟨l, total, h1, h2, h3⟩ := replyOfIndex_ok bk ctx _ resp h
      have hlen : resp.Result.length = l.length := by rw [h2, List.length_map]
      exact ⟨l, total, h1, h2, hlen, h3, fun hle => hlen ▸ hle⟩
  · rw [Top_eq_replyOfIndex bk ctx r] at h
    obtain ⟨l, total, h1, h2, h3⟩ := replyOfIndex_ok bk ctx _ resp h
    have hlen : resp.Result.length = l.length := by rw [h2, List.length_map]
    exact ⟨l, total, h1, h2, hlen, h3, fun hle => hlen ▸ hle⟩

/-- Witness for C14 on the index that shows its arguments: `Top` with page 4
and perPage 1 returns the one entry the index returned and its total 4001;
`Search` without pagination returns the two entries and the total 10. -/
theorem list_handlers_pass_index_page_witness :
    Top echoQuery 0 (some { Page := 4, PerPage := 1 })
      = Reply.ok { Result := [{ Cid := "Qx2", Rank := 22 }],
                   Pagination := { Total := 4001 } } ∧
    Search echoQuery 0 (some { Cid := "Qx1", Pagination := none })
      = Reply.ok { Result := [{ Cid := "Qx2", Rank := 22 }, { Cid := "Qx1", Rank := 11 }],
                   Pagination := { Total := 10 } } :=
  ⟨((list_handlers_pass_index_page echoQuery 0).2.2.1 { Page := 4, PerPage := 1 }
      [⟨2, 22⟩] 4001 rfl).1,
   ((list_handlers_pass_index_page echoQuery 0).1 { Cid := "Qx1", Pagination := none } 1
      [⟨2, 22⟩, ⟨1, 11⟩] 10 (by decide) rfl).1⟩

theorem FixUserStake_get_of_mem (s : IndexedKeeper) (k : AccNumber)
    (hk : k ∈ s.userNewTotalStake.keys) :
    StakeMap.get (FixUserStake s).2.userTotalStake k = StakeMap.get s.userNewTotalStake k := by
  rw [FixUserStake_committed, fixLoop_get _ s.userNewTotalStake.nodupKeys]
  have hlook : List.dlookup k s.userNewTotalStake.entries
      = some (StakeMap.get s.userNewTotalStake k) :=
    (List.mem_dlookup_iff s.userNewTotalStake.nodupKeys).mpr
      (StakeMap.mem_entries_of_mem_keys _ hk)
  rw [hlook]

theorem FixUserStake_lookup_of_not_mem (s : IndexedKeeper) (k : AccNumber)
    (hk : k ∉ s.userNewTotalStake.keys) :
    (FixUserStake s).2.userTotalStake.lookup k = s.userTotalStake.lookup k := by
  rw [FixUserStake_committed]
  exact fixLoop_lookup_untouched s.userNewTotalStake.entries s.userTotalStake false k hk

theorem FixUserStake_get_of_not_mem (s : IndexedKeeper) (k : AccNumber)
    (hk : k ∉ s.userNewTotalStake.keys) :
    StakeMap.get (FixUserStake s).2.userTotalStake k = StakeMap.get s.userTotalStake k := by
  unfold StakeMap.get
  rw [FixUserStake_lookup_of_not_mem s k hk]

theorem FixUserStake_mem_keys (s : IndexedKeeper) (k : AccNumber) :
    k ∈ (FixUserStake s).2.userTotalStake.keys ↔
      k ∈ s.userTotalStake.keys ∨
        (k ∈ s.userNewTotalStake.keys ∧
          StakeMap.get s.userTotalStake k ≠ StakeMap.get s.userNewTotalStake k) := by
  rw [FixUserStake_committed, fixLoop_mem_keys _ s.userNewTotalStake.nodupKeys]
  constructor
  · rintro (hm | ⟨⟨j, v⟩, he, rfl, hd⟩)
    · exact Or.inl hm
    · refine Or.inr ⟨List.mem_keys_of_mem he, ?_⟩
      rw [StakeMap.get_of_mem_entries _ he]
      exact hd
  · rintro (hm | ⟨hk, hd⟩)
    · exact Or.inl hm
    · exact Or.inr ⟨⟨k, StakeMap.get s.userNewTotalStake k⟩,
        StakeMap.mem_entries_of_mem_keys _ hk, rfl, hd⟩

/-! ## Claims on the frame and the scope of `FixUserStake` and `EndBlocker` -/

/-- Counterexample to C15 as stated. In a state whose committed map has the
key 9 with stake 5 and whose fresh map has only the key 1 with stake 0, after
`FixUserStake` the key 9 is a key of the committed map and not of the fresh
map, the two maps give 5 and 0 for it, and the key 1 of the fresh map is not
a key of the committed map. -/
theorem FixUserStake_key_universe_counterexample :
    9 ∈ (FixUserStake staleState).2.userTotalStake.keys ∧
    9 ∉ (FixUserStake staleState).2.userNewTotalStake.keys ∧
    StakeMap.get (FixUserStake staleState).2.userTotalStake 9 = 5 ∧
    StakeMap.get (FixUserStake staleState).2.userNewTotalStake 9 = 0 ∧
    1 ∈ (FixUserStake staleState).2.userNewTotalStake.keys ∧
    1 ∉ (FixUserStake staleState).2.userTotalStake.keys := by
  decide

/-- Claim C15, amended. After `FixUserStake` the two maps give the same value
for every key of the fresh map, and an account number that is not a key of
the fresh map keeps the committed entry it had. Hence the maps give the same
value for every account number exactly when, before the call, the committed
map read 0 outside the keys of the fresh map; and they have the same keys
exactly when, before the call, every committed key was a fresh key and every
fresh key was a committed key or carried a non-zero value. -/
theorem FixUserStake_agreement_scope (s : IndexedKeeper) :
    (∀ k ∈ s.userNewTotalStake.keys,
      StakeMap.get (FixUserStake s).2.userTotalStake k
        = StakeMap.get (FixUserStake s).2.userNewTotalStake k) ∧
    (∀ k, k ∉ s.userNewTotalStake.keys →
      (FixUserStake s).2.userTotalStake.lookup k = s.userTotalStake.lookup k) ∧
    ((∀ k, StakeMap.get (FixUserStake s).2.userTotalStake k
        = StakeMap.get (FixUserStake s).2.userNewTotalStake k) ↔
      ∀ k, k ∉ s.userNewTotalStake.keys → StakeMap.get s.userTotalStake k = 0) ∧
    ((∀ k, k ∈ (FixUserStake s).2.userTotalStake.keys ↔
        k ∈ (FixUserStake s).2.userNewTotalStake.keys) ↔
      (∀ k ∈ s.userTotalStake.keys, k ∈ s.userNewTotalStake.keys) ∧
      ∀ k ∈ s.userNewTotalStake.keys,
        k ∈ s.userTotalStake.keys ∨ StakeMap.get s.userNewTotalStake k ≠ 0) := by
  simp only [FixUserStake_fresh]
  refine ⟨fun k hk => FixUserStake_get_of_mem s k hk,
    fun k hk => FixUserStake_lookup_of_not_mem s k hk, ⟨?_, ?_⟩, ⟨?_, ?_⟩⟩
  · intro h k hk
    have h1 := h k
    rw [FixUserStake_get_of_not_mem s k hk] at h1
    rw [h1]
    exact StakeMap.get_eq_zero_of_not_mem _ hk
  · intro h k
    by_cases hk : k ∈ s.userNewTotalStake.keys
    · exact FixUserStake_get_of_mem s k hk
    · rw [FixUserStake_get_of_not_mem s k hk, h k hk]
      exact (StakeMap.get_eq_zero_of_not_mem _ hk).symm
  · intro h
    constructor
    · intro k hk
      exact (h k).mp ((FixUserStake_mem_keys s k).mpr (Or.inl hk))
    · intro k hk
      rcases (FixUserStake_mem_keys s k).mp ((h k).mpr hk) with hc | ⟨_, hd⟩
      · exact Or.inl hc
      · by_cases hc : k ∈ s.userTotalStake.keys
        · exact Or.inl hc
        · rw [StakeMap.get_eq_zero_of_not_mem _ hc] at hd
          exact Or.inr (fun e => hd e.symm)
  · rintro ⟨h1, h2⟩ k
    constructor
    · intro hk
      rcases (FixUserStake_mem_keys s k).mp hk with hc | ⟨hf, _⟩
      · exact h1 k hc
      · exact hf
    · intro hk
      rcases h2 k hk with hc | hv
      · exact (FixUserStake_mem_keys s k).mpr (Or.inl hc)
      · by_cases hc : k ∈ s.userTotalStake.keys
        · exact (FixUserStake_mem_keys s k).mpr (Or.inl hc)
        · refine (FixUserStake_mem_keys s k).mpr (Or.inr ⟨hk, ?_⟩)
          rw [StakeMap.get_eq_zero_of_not_mem _ hc]
          exact fun e => hv e.symm

/-- Witness for the amended C15: key 2 of the fresh map of the sample state,
and key 9, which only the committed map of the stale state has. -/
theorem FixUserStake_agreement_scope_witness :
    StakeMap.get (FixUserStake sampleState).2.userTotalStake 2
      = StakeMap.get (FixUserStake sampleState).2.userNewTotalStake 2 ∧
    (FixUserStake staleState).2.userTotalStake.lookup 9 = staleState.userTotalStake.lookup 9 :=
  ⟨(FixUserStake_agreement_scope sampleState).1 2 (by decide),
   (FixUserStake_agreement_scope staleState).2.1 9 (by decide)⟩

/-- Counterexample to C16 as stated. With allocated maps and an empty
ChangeSet, `UpdateStake` of 5 on account 7, whose fresh value and total stake
are 40, followed by `EndBlocker` leaves the fresh value 45: the delta is not
superseded. With a ChangeSet holding the address `[5]`, which has no account,
`EndBlocker` faults, and on the keeper `NewIndexedKeeper` returns, whose maps
are nil, `UpdateStake` itself faults. -/
theorem delta_superseded_counterexample :
    quietState.accsToUpdate = [] ∧
    accountNumberOf sampleBank 0 [1] = some 7 ∧
    uint64 (sampleBank.GetAccountTotalStake 0 [1]) = 40 ∧
    ((UpdateStake 7 5 quietState).bind (EndBlocker sampleBank 0)).map
      (fun s2 => StakeMap.get s2.userNewTotalStake 7) = some 45 ∧
    (UpdateStake 7 5 (hook (some [5]) none quietState)).bind (EndBlocker sampleBank 0) = none ∧
    UpdateStake 7 5 NewIndexedKeeper = none := by
  decide

/-- Claim C16, amended. Let `Load` have allocated the maps, every recorded
address be registered under `ctx` and distinct recorded addresses have distinct
account numbers. Then `UpdateStake(acc, d)` followed by `EndBlocker(ctx)`
completes, and afterwards the fresh value of `acc` is the total stake of the
recorded address whose account number is `acc`, with no trace of the delta,
when there is such an address; when no recorded address has the account
number `acc`, the flush leaves the delta in place and the fresh value is the
old one plus `d` modulo `2 ^ 64`. -/
theorem delta_superseded_when_touched (k : Keeper) (ctx : Context) (s : IndexedKeeper)
    (acc : AccNumber) (d : Int) (hload : s.maps ≠ none)
    (hreg : ∀ a ∈ s.accsToUpdate, k.accountKeeper.GetAccount ctx a ≠ none)
    (hinj : ∀ a ∈ s.accsToUpdate, ∀ b ∈ s.accsToUpdate,
      accountNumberOf k ctx a = accountNumberOf k ctx b → a = b) :
    ∃ s1 s2, UpdateStake acc d s = some s1 ∧ EndBlocker k ctx s1 = some s2 ∧
      (∀ a ∈ s.accsToUpdate, accountNumberOf k ctx a = some acc →
        StakeMap.get s2.userNewTotalStake acc = uint64 (k.GetAccountTotalStake ctx a)) ∧
      ((∀ a ∈ s.accsToUpdate, accountNumberOf k ctx a ≠ some acc) →
        StakeMap.get s2.userNewTotalStake acc
          = addUint64 (StakeMap.get s.userNewTotalStake acc) (uint64 d)) := by
  obtain ⟨maps, accs⟩ := s
  cases maps with
  | none => exact absurd rfl hload
  | some m =>
    obtain ⟨s2, h1, _, _, _, h5, h6⟩ := EndBlocker_values k ctx
      { maps := some { m with userNewTotalStake := (StakeMap.set m.userNewTotalStake acc
          (addUint64 (StakeMap.get m.userNewTotalStake acc) (uint64 d))) },
        accsToUpdate := accs } (by simp) hreg hinj
    refine ⟨_, s2, UpdateStake_allocated acc d m accs, h1, fun a ha hn => h5 a ha acc hn, ?_⟩
    intro hno
    unfold StakeMap.get
    rw [h6 acc hno]
    exact StakeMap.get_set_self m.userNewTotalStake acc _

/-- Witness for the amended C16 on the sample state, whose ChangeSet holds the
address `[1]` of account 7: a delta on account 7 is replaced by the total
stake 40, a delta on account 2 stays. -/
theorem delta_superseded_when_touched_witness :
    (∃ s1 s2, UpdateStake 7 5 sampleState = some s1 ∧ EndBlocker sampleBank 0 s1 = some s2 ∧
      StakeMap.get s2.userNewTotalStake 7 = 40) ∧
    (∃ s1 s2, UpdateStake 2 5 sampleState = some s1 ∧ EndBlocker sampleBank 0 s1 = some s2 ∧
      StakeMap.get s2.userNewTotalStake 2 = 8) := by
  obtain ⟨s1, s2, h0, h1, h2, _⟩ := delta_superseded_when_touched sampleBank 0 sampleState 7 5
    (by decide) (by decide) (by decide)
  obtain ⟨s3, s4, h3, h4, _, h5⟩ := delta_superseded_when_touched sampleBank 0 sampleState 2 5
    (by decide) (by decide) (by decide)
  exact ⟨⟨s1, s2, h0, h1, h2 [1] (by decide) (by decide)⟩, ⟨s3, s4, h3, h4, h5 (by decide)⟩⟩

/-- Counterexample to C17 as stated. On the keeper `NewIndexedKeeper` returns,
with the address `[1]` recorded by the hook, every recorded address is
registered and yet `EndBlocker` faults, on the write into the nil fresh map.
-/
theorem EndBlocker_faults_iff_unregistered_counterexample :
    (∀ a ∈ (hook (some [1]) none NewIndexedKeeper).accsToUpdate,
      sampleBank.accountKeeper.GetAccount 0 a ≠ none) ∧
    EndBlocker sampleBank 0 (hook (some [1]) none NewIndexedKeeper) = none := by
  decide

/-- Claim C17, amended. `EndBlocker` either faults or returns the next state,
it has no error result: it faults exactly when some address of the ChangeSet
has no registered account under the flush context, or the ChangeSet is not
empty while the maps are still nil because `Load` has not run; so with the
maps allocated, or with nothing recorded, it returns a state when every
recorded address is registered. -/
theorem EndBlocker_faults_iff_unregistered (k : Keeper) (ctx : Context) (s : IndexedKeeper) :
    (EndBlocker k ctx s = none ↔
      (∃ a ∈ s.accsToUpdate, k.accountKeeper.GetAccount ctx a = none) ∨
      (s.maps = none ∧ s.accsToUpdate ≠ [])) ∧
    ((s.maps ≠ none ∨ s.accsToUpdate = []) →
      (∀ a ∈ s.accsToUpdate, k.accountKeeper.GetAccount ctx a ≠ none) →
      ∃ s2, EndBlocker k ctx s = some s2) := by
  refine ⟨EndBlocker_eq_none_iff k ctx s, fun hload hreg => ?_⟩
  cases hres : EndBlocker k ctx s with
  | some s2 => exact ⟨s2, rfl⟩
  | none =>
    rcases (EndBlocker_eq_none_iff k ctx s).mp hres with ⟨a, ha, hnone⟩ | ⟨hm, hne⟩
    · exact absurd hnone (hreg a ha)
    · rcases hload with hl | hl
      · exact absurd hm hl
      · exact absurd hl hne

/-- Witness for the amended C17: the address `[5]` has no account in the sample
store, so a ChangeSet holding it makes `EndBlocker` fault; the sample state,
whose maps are allocated and whose only recorded address is registered, is
flushed. -/
theorem EndBlocker_faults_iff_unregistered_witness :
    EndBlocker sampleBank 0 (hook (some [5]) none sampleState) = none ∧
    ∃ s2, EndBlocker sampleBank 0 sampleState = some s2 :=
  ⟨(EndBlocker_faults_iff_unregistered sampleBank 0 (hook (some [5]) none sampleState)).1.mpr
      (Or.inl ⟨[5], by decide, by decide⟩),
   (EndBlocker_faults_iff_unregistered sampleBank 0 sampleState).2 (Or.inl (by decide))
      (by decide)⟩

/-- Claim C18. `FixUserStake` is idempotent: run on the state a first run
returned, it returns false and that very state, so both maps stay exactly as
the first run left them. -/
theorem FixUserStake_idempotent (s : IndexedKeeper) :
    FixUserStake (FixUserStake s).2 = (false, (FixUserStake s).2) := by
  obtain ⟨maps, accs⟩ := s
  cases maps with
  | none => rfl
  | some m =>
    have hagree : ∀ e ∈ m.userNewTotalStake.entries,
        StakeMap.get (fixLoop m.userNewTotalStake.entries m.userTotalStake false).1 e.1
          = e.2 := by
      rintro ⟨k, v⟩ he
      have h := FixUserStake_get_of_mem { maps := some m, accsToUpdate := accs } k
        (List.mem_keys_of_mem he)
      rw [FixUserStake_committed] at h
      exact h.trans (StakeMap.get_of_mem_entries _ he)
    simp only [FixUserStake]
    rw [fixLoop_of_agree _ _ false hagree]

/-- Claim C19. `FixUserStake` writes only from the fresh map into the committed
map: the fresh map and the ChangeSet are unchanged, every account number that
is not a key of the fresh map keeps its committed entry, present with the
same value or absent, and when the call returns false the whole state is
unchanged; nil maps stay nil and allocated maps stay allocated. -/
theorem FixUserStake_one_directional (s : IndexedKeeper) :
    (FixUserStake s).2.userNewTotalStake = s.userNewTotalStake ∧
    (FixUserStake s).2.accsToUpdate = s.accsToUpdate ∧
    (∀ k, k ∉ s.userNewTotalStake.keys →
      (FixUserStake s).2.userTotalStake.lookup k = s.userTotalStake.lookup k) ∧
    ((FixUserStake s).1 = false → (FixUserStake s).2 = s) ∧
    (FixUserStake s).2.maps.isSome = s.maps.isSome := by
  refine ⟨FixUserStake_fresh s, FixUserStake_accsToUpdate s,
    fun k hk => FixUserStake_lookup_of_not_mem s k hk, fun h => ?_, FixUserStake_maps_isSome s⟩
  obtain ⟨maps, accs⟩ := s
  cases maps with
  | none => rfl
  | some m =>
    have hc : (fixLoop m.userNewTotalStake.entries m.userTotalStake false).1 = m.userTotalStake :=
      fixLoop_fst_of_flag_false _ _ _ h
    simp only [FixUserStake]
    rw [hc]

/-- Witness for C19: the committed stake 5 of key 9, which the fresh map of the
stale state lacks, is kept; the state with equal maps is returned unchanged.
-/
theorem FixUserStake_one_directional_witness :
    (FixUserStake staleState).2.userTotalStake.lookup 9 = some 5 ∧
    (FixUserStake agreedState).2 = agreedState :=
  ⟨(FixUserStake_one_directional staleState).2.2.1 9 (by decide),
   (FixUserStake_one_directional agreedState).2.2.2.1 (by decide)⟩

end Cyber
